import Mathlib

/-!
Shallow embedding of the library-cli Neo4j engine
(src/library_cli/neo4j/neo4j_api.py).

The graph database state is modelled as lists of typed nodes (Book, User,
Author) and typed relations (AuthorOf, Borrows, Rates).  Each public method
of Neo4jAPI becomes a Lean function on this state.  Cypher statements are
translated clause by clause: a MATCH row exists only when every node and
relation bound by the pattern exists, aggregate COUNT over zero rows yields
a single row holding 0, MERGE finds or creates, and SET / DELETE apply to
every matched row.  Python loops of the form
  for record in result.records(): x = record[k]
keep the last record, which `lastSuch` mirrors.
-/

namespace LibraryCli

structure Book where
  isbn : String
  title : String
  pages : Int
  quantity : Int
deriving DecidableEq, Repr

structure User where
  username : String
  name : String
  phone : Int
deriving DecidableEq, Repr

/-- An Author_Of relation between the book `isbn` and the author `author`. -/
structure AuthorOf where
  isbn : String
  author : String
deriving DecidableEq, Repr

/-- A Borrows relation; its count property is named `quantity` in the code. -/
structure Borrow where
  username : String
  isbn : String
  quantity : Int
deriving DecidableEq, Repr

/-- A Rates relation carrying a `score` property. -/
structure Rate where
  username : String
  isbn : String
  score : Int
deriving DecidableEq, Repr

/-- The whole graph: Book, User and Author nodes plus the three relation
types.  Author nodes carry only their name. -/
structure LibraryState where
  books : List Book
  users : List User
  authors : List String
  authorOf : List AuthorOf
  borrows : List Borrow
  rates : List Rate
deriving DecidableEq, Repr

/-- Last element of `l` satisfying `p`, mirroring the Python pattern
`for record in result.records(): x = record[k]` that keeps the final row. -/
def lastSuch {α : Type} (p : α → Bool) (l : List α) : Option α :=
  l.foldl (fun acc x => if p x then some x else acc) none

/-- get_book: MATCH (book:Book {isbn: ..}) RETURN book, consumed by a loop
keeping the last record. -/
def getBook (s : LibraryState) (isbn : String) : Option Book :=
  lastSuch (fun b => b.isbn = isbn) s.books

/-- get_user: MATCH (user:User {username: ..}) RETURN user, consumed by a
loop keeping the last record. -/
def getUser (s : LibraryState) (username : String) : Option User :=
  lastSuch (fun u => u.username = username) s.users

/-- A Book node with this isbn exists (a MATCH on it has at least one row). -/
def bookExists (s : LibraryState) (isbn : String) : Prop :=
  ∃ b ∈ s.books, b.isbn = isbn

instance (s : LibraryState) (isbn : String) : Decidable (bookExists s isbn) :=
  inferInstanceAs (Decidable (∃ b ∈ s.books, b.isbn = isbn))

/-- A User node with this username exists. -/
def userExists (s : LibraryState) (username : String) : Prop :=
  ∃ u ∈ s.users, u.username = username

instance (s : LibraryState) (username : String) : Decidable (userExists s username) :=
  inferInstanceAs (Decidable (∃ u ∈ s.users, u.username = username))

/-- An Author node with this name exists. -/
def authorExists (s : LibraryState) (name : String) : Prop :=
  name ∈ s.authors

instance (s : LibraryState) (name : String) : Decidable (authorExists s name) :=
  inferInstanceAs (Decidable (name ∈ s.authors))

/-- First Borrows relation for the pair, as find? (used for observation). -/
def borrowEntry (s : LibraryState) (username isbn : String) : Option Borrow :=
  s.borrows.find? (fun br => br.username = username ∧ br.isbn = isbn)

/-- The MERGE of check_out_book_for_user:
MERGE (user) - [borrows:Borrows] -> (book)
ON CREATE SET borrows.quantity = 1
ON MATCH SET borrows.quantity = borrows.quantity + 1. -/
def mergeBorrows (s : LibraryState) (isbn username : String) : LibraryState :=
  if s.borrows.any (fun br => br.username = username ∧ br.isbn = isbn) then
    { s with borrows := s.borrows.map (fun br =>
        if br.username = username ∧ br.isbn = isbn then
          { br with quantity := br.quantity + 1 }
        else br) }
  else
    { s with borrows := s.borrows ++ [{ username := username, isbn := isbn, quantity := 1 }] }

/-- MATCH (book:Book {isbn: ..}) SET book.quantity = book.quantity + d. -/
def shiftBookQuantity (s : LibraryState) (isbn : String) (d : Int) : LibraryState :=
  { s with books := s.books.map (fun b =>
      if b.isbn = isbn then { b with quantity := b.quantity + d } else b) }

/-- check_out_book_for_user (neo4j_api.py lines 294-357): verify the book
exists, verify stock, verify the user exists, then merge the Borrows
relation and decrement the book quantity. -/
def check_out_book_for_user (s : LibraryState) (isbn username : String) :
    Bool × LibraryState :=
  match getBook s isbn with
  | none => (false, s)
  | some book =>
    if book.quantity ≤ 0 then (false, s)
    else
      match getUser s username with
      | none => (false, s)
      | some _ =>
        (true, shiftBookQuantity (mergeBorrows s isbn username) isbn (-1))

/-- MATCH (user:User {username}) - [borrows:Borrows] - (book:Book {isbn}):
a row exists only when the user node, the book node and the relation all
exist; the consuming loop keeps the last record. -/
def matchBorrows (s : LibraryState) (isbn username : String) : Option Borrow :=
  if userExists s username ∧ bookExists s isbn then
    lastSuch (fun br => br.username = username ∧ br.isbn = isbn) s.borrows
  else none

/-- return_book_for_user (lines 359-407).  The update statement matches the
relation pattern again; its SET on the book runs once per matched row, hence
the shift by the number of matched relations (1 in any state the engine
builds, since MERGE keeps at most one Borrows relation per pair). -/
def return_book_for_user (s : LibraryState) (isbn username : String) :
    Bool × LibraryState :=
  match matchBorrows s isbn username with
  | none => (false, s)
  | some borrows =>
    let rows : Int :=
      ((s.borrows.filter (fun br => br.username = username ∧ br.isbn = isbn)).length : Int)
    if borrows.quantity = 1 then
      (true, shiftBookQuantity
        { s with borrows := s.borrows.filter (fun br => ¬(br.username = username ∧ br.isbn = isbn)) }
        isbn rows)
    else
      (true, shiftBookQuantity
        { s with borrows := s.borrows.map (fun br =>
            if br.username = username ∧ br.isbn = isbn then
              { br with quantity := br.quantity - 1 }
            else br) }
        isbn rows)

/-- rate_book (lines 469-518).  The third component is the list of error
log lines the call emits (the engine logs and returns False instead of
raising).  The duplicate check returns on the first matched record. -/
def rate_book (s : LibraryState) (username isbn : String) (score : Int) :
    Bool × LibraryState × List String :=
  match getUser s username with
  | none => (false, s, ["user username=" ++ username ++ " does not exist"])
  | some _ =>
    match getBook s isbn with
    | none => (false, s, ["book isbn=" ++ isbn ++ " does not exist"])
    | some _ =>
      match s.rates.find? (fun r => r.username = username ∧ r.isbn = isbn) with
      | some r =>
        (false, s,
          ["user username=" ++ username ++ " has already rated book isbn=" ++ isbn ++
            " with score=" ++ toString r.score])
      | none =>
        (true,
          { s with rates := s.rates ++ [{ username := username, isbn := isbn, score := score }] },
          [])

/-- recommend_books (lines 520-542): the single MATCH
(:User {username}) - [r1:Rates] - (b1:Book) - [r2:Rates] - (friend:User) - [r3:Rates] - (b2:Book)
WHERE r1.score = r2.score AND r3.score >= 3 RETURN b2.
Cypher relationship uniqueness makes r1, r2, r3 pairwise distinct relations
of one path; Rates entries stand for relations and are compared as values,
which coincides with relation identity on states without parallel duplicate
Rates relations (the engine never creates one: see rate_book).  Every node
bound by the pattern must exist for a row to match. -/
def recommend_books (s : LibraryState) (username : String) : List String :=
  s.rates.flatMap (fun r1 =>
    if userExists s username ∧ bookExists s r1.isbn ∧ r1.username = username then
      s.rates.flatMap (fun r2 =>
        if userExists s r2.username ∧ r2 ≠ r1 ∧ r2.isbn = r1.isbn ∧ r2.score = r1.score then
          s.rates.flatMap (fun r3 =>
            if bookExists s r3.isbn ∧ r3 ≠ r1 ∧ r3 ≠ r2 ∧ r3.username = r2.username ∧
                3 ≤ r3.score then
              [r3.isbn]
            else [])
        else [])
    else [])

/-- The membership the spec claims for recommend (C7), written from the
spec's words: there is a book b1 rated by the origin user, another user
(an aligned rater) who rated b1 with the same score, and a rating with
score at least 3 by that aligned rater on the candidate book.  To be
compared with the membership recommend_books actually computes. -/
def recommendClaimed (s : LibraryState) (username b2 : String) : Prop :=
  ∃ r1 ∈ s.rates, ∃ r2 ∈ s.rates, ∃ r3 ∈ s.rates,
    r1.username = username ∧ r2.isbn = r1.isbn ∧ r2.score = r1.score ∧
    r2.username ≠ username ∧ r3.username = r2.username ∧ r3.isbn = b2 ∧ 3 ≤ r3.score

instance (s : LibraryState) (username b2 : String) :
    Decidable (recommendClaimed s username b2) :=
  inferInstanceAs (Decidable (∃ r1 ∈ s.rates, ∃ r2 ∈ s.rates, ∃ r3 ∈ s.rates,
    r1.username = username ∧ r2.isbn = r1.isbn ∧ r2.score = r1.score ∧
    r2.username ≠ username ∧ r3.username = r2.username ∧ r3.isbn = b2 ∧ 3 ≤ r3.score))

/-- The guard count of remove_book:
MATCH (book:Book {isbn}) - [r] - (:User) RETURN COUNT(r) as relations.
The relation is untyped, so every relation between the book and an existing
User node is counted: Borrows and Rates alike.  COUNT yields 0 when the
book does not exist. -/
def countBookUserRelations (s : LibraryState) (isbn : String) : Nat :=
  if bookExists s isbn then
    (s.borrows.filter (fun br => br.isbn = isbn ∧ userExists s br.username)).length +
      (s.rates.filter (fun r => r.isbn = isbn ∧ userExists s r.username)).length
  else 0

/-- The guard count of remove_user:
MATCH (user:User {username}) - [r] - (:Book) RETURN COUNT(r) as relations. -/
def countUserBookRelations (s : LibraryState) (username : String) : Nat :=
  if userExists s username then
    (s.borrows.filter (fun br => br.username = username ∧ bookExists s br.isbn)).length +
      (s.rates.filter (fun r => r.username = username ∧ bookExists s r.isbn)).length
  else 0

/-- Rows of MATCH (book:Book {isbn}) - [relation:Author_Of] - (author:Author):
both endpoints must exist. -/
def linkMatches (s : LibraryState) (isbn : String) (e : AuthorOf) : Prop :=
  bookExists s isbn ∧ e.isbn = isbn ∧ authorExists s e.author

instance (s : LibraryState) (isbn : String) (e : AuthorOf) :
    Decidable (linkMatches s isbn e) :=
  inferInstanceAs (Decidable (bookExists s isbn ∧ e.isbn = isbn ∧ authorExists s e.author))

/-- The Author_Of relations of a book matched (and deleted) by the authors
replacement of edit_book and by remove_book. -/
def matchedAuthorLinks (s : LibraryState) (isbn : String) : List AuthorOf :=
  s.authorOf.filter (fun e => linkMatches s isbn e)

/-- Author_Of relations of this name whose book endpoint exists. -/
def authorLinkCount (s : LibraryState) (name : String) : Nat :=
  (s.authorOf.filter (fun e => e.author = name ∧ bookExists s e.isbn)).length

/-- The relation count asked by both orphan checks
(MATCH (author:Author {name}) - [relation:Author_Of] - (book:Book)
RETURN COUNT(relation)): rows need the author node and the book endpoint to
exist; COUNT over zero rows is 0. -/
def authorRelationCount (s : LibraryState) (name : String) : Nat :=
  if authorExists s name then authorLinkCount s name else 0

/-- MATCH (author:Author {name}) DELETE author. -/
def deleteAuthorNode (s : LibraryState) (name : String) : LibraryState :=
  { s with authors := s.authors.filter (fun a => ¬ a = name) }

/-- One step of the orphaned-author cleanup loop shared by edit_book
(authors) and remove_book: delete the author node when its remaining
Author_Of relation count is zero. -/
def orphanCleanup (s : LibraryState) (name : String) : LibraryState :=
  if authorRelationCount s name = 0 then deleteAuthorNode s name else s

/-- __link_author_to_book (lines 678-689):
MATCH (book:Book {isbn}) MERGE (author:Author {name})
CREATE (book) <- [relation:Author_Of] - (author).
When the book does not exist the MATCH has no rows and nothing happens. -/
def linkAuthorToBook (s : LibraryState) (isbn name : String) : LibraryState :=
  if bookExists s isbn then
    { s with
      authors := if authorExists s name then s.authors else s.authors ++ [name],
      authorOf := s.authorOf ++ [{ isbn := isbn, author := name }] }
  else s

/-- The authors branch of edit_book (lines 113-150): delete all Author_Of
relations of the book, clean up each removed author that became orphaned,
then find-or-create and link each new name.  In the error-free run the
method returns True. -/
def edit_book_authors (s : LibraryState) (isbn : String) (names : List String) :
    Bool × LibraryState :=
  let removed := (matchedAuthorLinks s isbn).map (fun e => e.author)
  let s1 := { s with authorOf := s.authorOf.filter (fun e => ¬ linkMatches s isbn e) }
  let s2 := removed.foldl orphanCleanup s1
  let s3 := names.foldl (fun st name => linkAuthorToBook st isbn name) s2
  (true, s3)

/-- A nonempty all-digit character list read as a decimal number. -/
def pyDigits (cs : List Char) : Option Nat :=
  if cs = [] then none
  else if cs.all (fun c => c.isDigit) then
    some (cs.foldl (fun acc c => acc * 10 + (c.toNat - 48)) 0)
  else none

/-- Python int(value) on the strings the CLI passes: strip surrounding
whitespace, allow one optional sign, then decimal digits. -/
def pyParseInt (v : String) : Option Int :=
  let ws : Char → Bool := fun c => c = ' ' ∨ c = '\t' ∨ c = '\n' ∨ c = '\r'
  let cs := ((v.data.dropWhile ws).reverse.dropWhile ws).reverse
  match cs with
  | '-' :: rest => (pyDigits rest).map (fun n => -(n : Int))
  | '+' :: rest => (pyDigits rest).map (fun n => (n : Int))
  | _ => (pyDigits cs).map (fun n => (n : Int))

/-- edit_book (lines 92-168) for field = quantity or field = pages: arity
check, int conversion (ValueError caught, False returned), the `value < 0`
range check, then MATCH (book:Book {isbn}) SET book.field = value.
`none` models the uncaught ValueError Python raises when unpacking an empty
value list. -/
def edit_book_numeric (s : LibraryState) (isbn field : String) (values : List String) :
    Option (Bool × LibraryState) :=
  if values.length > 1 then some (false, s)
  else
    match values with
    | [] => none
    | v :: _ =>
      match pyParseInt v with
      | none => some (false, s)
      | some n =>
        if n < 0 then some (false, s)
        else
          some (true, { s with books := s.books.map (fun b =>
            if b.isbn = isbn then
              (if field = "quantity" then { b with quantity := n } else { b with pages := n })
            else b) })

/-- remove_book (lines 544-613): guard on the untyped book-user relation
count, then delete all Author_Of relations of the book, clean up orphaned
authors, and delete the Book node. -/
def remove_book (s : LibraryState) (isbn : String) : Bool × LibraryState :=
  if countBookUserRelations s isbn ≠ 0 then (false, s)
  else
    let removed := (matchedAuthorLinks s isbn).map (fun e => e.author)
    let s1 := { s with authorOf := s.authorOf.filter (fun e => ¬ linkMatches s isbn e) }
    let s2 := removed.foldl orphanCleanup s1
    (true, { s2 with books := s2.books.filter (fun b => ¬ b.isbn = isbn) })

/-- remove_user (lines 615-648): guard on the untyped user-book relation
count, then MATCH (user:User {username}) DELETE user. -/
def remove_user (s : LibraryState) (username : String) : Bool × LibraryState :=
  if countUserBookRelations s username ≠ 0 then (false, s)
  else (true, { s with users := s.users.filter (fun u => ¬ u.username = username) })

/-- add_book (lines 45-71).  The CREATE violates the isbn node-key
constraint installed by __setup when a book with this isbn already exists;
__run_session turns that store error into a False return.  The authors of
the Book object are passed separately here. -/
def add_book (s : LibraryState) (b : Book) (authorNames : List String) :
    Bool × LibraryState :=
  if bookExists s b.isbn then (false, s)
  else
    (true, authorNames.foldl (fun st name => linkAuthorToBook st b.isbn name)
      { s with books := s.books ++ [b] })

/-- add_user (lines 73-90), with the username node-key constraint. -/
def add_user (s : LibraryState) (u : User) : Bool × LibraryState :=
  if userExists s u.username then (false, s)
  else (true, { s with users := s.users ++ [u] })

/-! ### Store-error flow

To settle how the engine treats errors raised by the store, the two
representative methods are re-run under an injected error schedule: one
`Option String` per session.run call, in call order, `some msg` meaning
the store raises a CypherError with that message on that call.
-/

/-- Outcome of running a method under injected store errors: either a
CypherError escaped the method, or the method returned, with the error log
lines it emitted. -/
inductive RunOutcome where
  | raised (msg : String)
  | returned (ok : Bool) (s : LibraryState) (log : List String)
deriving DecidableEq, Repr

/-- Whether the outcome is an exception that escaped the method. -/
def RunOutcome.isRaised : RunOutcome → Bool
  | raised _ => true
  | returned _ _ _ => false

/-- Consume the next scheduled store-call outcome. -/
def takeCall (errs : List (Option String)) : Option String × List (Option String) :=
  match errs with
  | [] => (none, [])
  | e :: rest => (e, rest)

/-- The orphan-cleanup loop of the authors branch of edit_book
(lines 126-145) under an error schedule.  The COUNT query on line 136 is a
bare session.run: an error there escapes the method.  The author deletion
goes through __run_session, which catches the error, logs its message and
makes edit_book return False. -/
def orphanLoopRun : LibraryState → List String → List (Option String) →
    Sum RunOutcome (LibraryState × List (Option String))
  | st, [], errs => Sum.inr (st, errs)
  | st, name :: rest, errs =>
    match takeCall errs with
    | (some m, _) => Sum.inl (RunOutcome.raised m)
    | (none, errs1) =>
      if authorRelationCount st name = 0 then
        match takeCall errs1 with
        | (some m, _) => Sum.inl (RunOutcome.returned false st [m])
        | (none, errs2) => orphanLoopRun (deleteAuthorNode st name) rest errs2
      else orphanLoopRun st rest errs1

/-- The linking loop of the authors branch (lines 147-150) under an error
schedule; __link_author_to_book runs through __run_session, so an error is
caught, logged, and edit_book returns False. -/
def linkLoopRun (isbn : String) : LibraryState → List String → List (Option String) →
    Sum RunOutcome (LibraryState × List (Option String))
  | st, [], errs => Sum.inr (st, errs)
  | st, name :: rest, errs =>
    match takeCall errs with
    | (some m, _) => Sum.inl (RunOutcome.returned false st [m])
    | (none, errs1) => linkLoopRun isbn (linkAuthorToBook st isbn name) rest errs1

/-- The authors branch of edit_book under an error schedule.  edit_book has
no try/except of its own; the session.run on line 124 that deletes the
relations is bare, so a store error there escapes the method as an
exception. -/
def edit_book_authors_run (s : LibraryState) (isbn : String) (names : List String)
    (errs : List (Option String)) : RunOutcome :=
  match takeCall errs with
  | (some m, _) => RunOutcome.raised m
  | (none, errs1) =>
    let removed := (matchedAuthorLinks s isbn).map (fun e => e.author)
    let s1 := { s with authorOf := s.authorOf.filter (fun e => ¬ linkMatches s isbn e) }
    match orphanLoopRun s1 removed errs1 with
    | Sum.inl out => out
    | Sum.inr (s2, errs2) =>
      match linkLoopRun isbn s2 names errs2 with
      | Sum.inl out => out
      | Sum.inr (s3, _) => RunOutcome.returned true s3 []

/-- check_out_book_for_user under an error schedule.  Its whole body sits in
try/except CypherError, whose handler logs error.message and returns False,
so no store error escapes; the four store calls are the get_book run, the
get_user run, the MERGE and the quantity decrement. -/
def check_out_run (s : LibraryState) (isbn username : String)
    (errs : List (Option String)) : RunOutcome :=
  match takeCall errs with
  | (some m, _) => RunOutcome.returned false s [m]
  | (none, errs1) =>
    match getBook s isbn with
    | none => RunOutcome.returned false s ["book isbn=" ++ isbn ++ " does not exist"]
    | some book =>
      if book.quantity ≤ 0 then
        RunOutcome.returned false s ["book isbn=" ++ isbn ++ " is out of stock"]
      else
        match takeCall errs1 with
        | (some m, _) => RunOutcome.returned false s [m]
        | (none, errs2) =>
          match getUser s username with
          | none =>
            RunOutcome.returned false s ["user username=" ++ username ++ " does not exist"]
          | some _ =>
            match takeCall errs2 with
            | (some m, _) => RunOutcome.returned false s [m]
            | (none, errs3) =>
              match takeCall errs3 with
              | (some m, _) => RunOutcome.returned false (mergeBorrows s isbn username) [m]
              | (none, _) =>
                RunOutcome.returned true
                  (shiftBookQuantity (mergeBorrows s isbn username) isbn (-1)) []

/-- return_book_for_user under an error schedule.  Its whole body sits in
try/except CypherError (lines 363-407): the two store calls are the
borrows-retrieval run and the update run, and an error on either is caught,
logged, and turned into a False return.  On an error-free success the state
is the update return_book_for_user performs. -/
def return_book_run (s : LibraryState) (isbn username : String)
    (errs : List (Option String)) : RunOutcome :=
  match takeCall errs with
  | (some m, _) => RunOutcome.returned false s [m]
  | (none, e1) =>
    match matchBorrows s isbn username with
    | none =>
      RunOutcome.returned false s
        ["book isbn=" ++ isbn ++ " was not checked out by user username=" ++ username]
    | some _ =>
      match takeCall e1 with
      | (some m, _) => RunOutcome.returned false s [m]
      | (none, _) =>
        RunOutcome.returned true (return_book_for_user s isbn username).2 []

/-- rate_book under an error schedule.  Its whole body sits in try/except
CypherError (lines 472-518): the store calls are the get_user run, the
get_book run, the duplicate-check run, and the CREATE issued through
__run_session; the first three raise into the method's except, the fourth
is caught inside __run_session which logs the message and makes rate_book
return False. -/
def rate_book_run (s : LibraryState) (username isbn : String) (score : Int)
    (errs : List (Option String)) : RunOutcome :=
  match takeCall errs with
  | (some m, _) => RunOutcome.returned false s [m]
  | (none, e1) =>
    match getUser s username with
    | none => RunOutcome.returned false s ["user username=" ++ username ++ " does not exist"]
    | some _ =>
      match takeCall e1 with
      | (some m, _) => RunOutcome.returned false s [m]
      | (none, e2) =>
        match getBook s isbn with
        | none => RunOutcome.returned false s ["book isbn=" ++ isbn ++ " does not exist"]
        | some _ =>
          match takeCall e2 with
          | (some m, _) => RunOutcome.returned false s [m]
          | (none, e3) =>
            match s.rates.find? (fun r => r.username = username ∧ r.isbn = isbn) with
            | some r =>
              RunOutcome.returned false s
                ["user username=" ++ username ++ " has already rated book isbn=" ++
                  isbn ++ " with score=" ++ toString r.score]
            | none =>
              match takeCall e3 with
              | (some m, _) => RunOutcome.returned false s [m]
              | (none, _) =>
                RunOutcome.returned true
                  { s with rates := s.rates ++
                    [{ username := username, isbn := isbn, score := score }] } []

/-- The orphan-cleanup loop of remove_book (lines 574-598) under an error
schedule.  Unlike the loop of edit_book's authors branch, the whole of
remove_book sits in try/except CypherError, so an error on the count run is
caught by the method (Sum.inl carries the state and error log of the early
False return); an error on the author deletion is caught inside
__run_session, after which remove_book also logs its own failure line and
returns False. -/
def removeOrphanLoopRun : LibraryState → List String → List (Option String) →
    Sum (LibraryState × List String) (LibraryState × List (Option String))
  | st, [], errs => Sum.inr (st, errs)
  | st, name :: rest, errs =>
    match takeCall errs with
    | (some m, _) => Sum.inl (st, [m])
    | (none, errs1) =>
      if authorRelationCount st name = 0 then
        match takeCall errs1 with
        | (some m, _) => Sum.inl (st, [m, "failed to delete author name=" ++ name])
        | (none, errs2) => removeOrphanLoopRun (deleteAuthorNode st name) rest errs2
      else removeOrphanLoopRun st rest errs1

/-- remove_book under an error schedule.  Its whole body sits in try/except
CypherError (lines 549-613): the guard count run, the relation-deletion
run, every orphan-check run and the writes issued through __run_session all
convert a store error into a False return with the message logged. -/
def remove_book_run (s : LibraryState) (isbn : String)
    (errs : List (Option String)) : RunOutcome :=
  match takeCall errs with
  | (some m, _) => RunOutcome.returned false s [m]
  | (none, e1) =>
    if countBookUserRelations s isbn ≠ 0 then
      RunOutcome.returned false s
        ["book isbn=" ++ isbn ++ " is involved in " ++
          toString (countBookUserRelations s isbn) ++ " user relations"]
    else
      match takeCall e1 with
      | (some m, _) => RunOutcome.returned false s [m]
      | (none, e2) =>
        match removeOrphanLoopRun
            { s with authorOf := s.authorOf.filter (fun e => ¬ linkMatches s isbn e) }
            ((matchedAuthorLinks s isbn).map (fun e => e.author)) e2 with
        | Sum.inl (st, log) => RunOutcome.returned false st log
        | Sum.inr (s2, e3) =>
          match takeCall e3 with
          | (some m, _) => RunOutcome.returned false s2 [m]
          | (none, _) =>
            RunOutcome.returned true
              { s2 with books := s2.books.filter (fun b => ¬ b.isbn = isbn) } []

/-- remove_user under an error schedule.  Its whole body sits in try/except
CypherError (lines 624-648): the guard count run and the deletion run both
convert a store error into a False return with the message logged. -/
def remove_user_run (s : LibraryState) (username : String)
    (errs : List (Option String)) : RunOutcome :=
  match takeCall errs with
  | (some m, _) => RunOutcome.returned false s [m]
  | (none, e1) =>
    if countUserBookRelations s username ≠ 0 then
      RunOutcome.returned false s
        ["user username=" ++ username ++ " is involved in " ++
          toString (countUserBookRelations s username) ++ " book relations"]
    else
      match takeCall e1 with
      | (some m, _) => RunOutcome.returned false s [m]
      | (none, _) =>
        RunOutcome.returned true
          { s with users := s.users.filter (fun u => ¬ u.username = username) } []

/-! ### Observations and state invariants -/

/-- Sum of the Borrows counts held against one book. -/
def borrowSum (s : LibraryState) (isbn : String) : Int :=
  ((s.borrows.filter (fun br => br.isbn = isbn)).map Borrow.quantity).sum

/-- Available stock plus copies out on loan: the conserved total of the
Borrow Ledger. -/
def stockTotal (s : LibraryState) (isbn : String) : Int :=
  ((getBook s isbn).map Book.quantity).getD 0 + borrowSum s isbn

/-- Every Borrows relation carries a count of at least 1. -/
def BorrowCountsAtLeastOne (s : LibraryState) : Prop :=
  ∀ br ∈ s.borrows, 1 ≤ br.quantity

/-- No book quantity is negative. -/
def BookQuantitiesNonneg (s : LibraryState) : Prop :=
  ∀ b ∈ s.books, 0 ≤ b.quantity

/-- At most one Book node per isbn (the node-key constraint of __setup). -/
def UniqueBooks (s : LibraryState) : Prop :=
  s.books.Pairwise (fun a b => a.isbn ≠ b.isbn)

/-- At most one Borrows relation per (user, book) pair (what MERGE keeps). -/
def UniqueBorrows (s : LibraryState) : Prop :=
  s.borrows.Pairwise (fun a b => ¬(a.username = b.username ∧ a.isbn = b.isbn))

/-- At most one Rates relation per (user, book) pair (what rate_book keeps). -/
def UniqueRates (s : LibraryState) : Prop :=
  s.rates.Pairwise (fun a b => ¬(a.username = b.username ∧ a.isbn = b.isbn))

/-- Every Rates relation connects an existing user to an existing book. -/
def RatesWF (s : LibraryState) : Prop :=
  ∀ r ∈ s.rates, userExists s r.username ∧ bookExists s r.isbn

/-- Every Author_Of relation connects an existing book to an existing
author node. -/
def AuthorLinksWF (s : LibraryState) : Prop :=
  ∀ e ∈ s.authorOf, bookExists s e.isbn ∧ authorExists s e.author

instance (s : LibraryState) : Decidable (BorrowCountsAtLeastOne s) :=
  inferInstanceAs (Decidable (∀ br ∈ s.borrows, 1 ≤ br.quantity))

instance (s : LibraryState) : Decidable (BookQuantitiesNonneg s) :=
  inferInstanceAs (Decidable (∀ b ∈ s.books, 0 ≤ b.quantity))

instance (s : LibraryState) : Decidable (UniqueBooks s) :=
  inferInstanceAs (Decidable (s.books.Pairwise (fun a b : Book => a.isbn ≠ b.isbn)))

instance (s : LibraryState) : Decidable (UniqueBorrows s) :=
  inferInstanceAs (Decidable (s.borrows.Pairwise
    (fun a b : Borrow => ¬(a.username = b.username ∧ a.isbn = b.isbn))))

instance (s : LibraryState) : Decidable (UniqueRates s) :=
  inferInstanceAs (Decidable (s.rates.Pairwise
    (fun a b : Rate => ¬(a.username = b.username ∧ a.isbn = b.isbn))))

instance (s : LibraryState) : Decidable (RatesWF s) :=
  inferInstanceAs (Decidable (∀ r ∈ s.rates, userExists s r.username ∧ bookExists s r.isbn))

instance (s : LibraryState) : Decidable (AuthorLinksWF s) :=
  inferInstanceAs (Decidable (∀ e ∈ s.authorOf, bookExists s e.isbn ∧ authorExists s e.author))

/-! ### Concrete states used by witness and counterexample theorems -/

def wBook : Book := { isbn := "111", title := "tortilla flat", pages := 10, quantity := 2 }

def wBook2 : Book := { isbn := "222", title := "cannery row", pages := 5, quantity := 1 }

def wAlice : User := { username := "alice", name := "Alice", phone := 123 }

def wBob : User := { username := "bob", name := "Bob", phone := 456 }

/-- Two books, two users, one book with two authors, no relations yet. -/
def wState : LibraryState :=
  { books := [wBook, wBook2], users := [wAlice, wBob], authors := ["A", "B"],
    authorOf := [{ isbn := "111", author := "A" }, { isbn := "111", author := "B" }],
    borrows := [], rates := [] }

/-- Like wState but alice holds two copies of book 111. -/
def wStateB : LibraryState :=
  { books := [wBook, wBook2], users := [wAlice, wBob], authors := [],
    authorOf := [],
    borrows := [{ username := "alice", isbn := "111", quantity := 2 }], rates := [] }

/-- Like wState but alice has rated book 111 with score 5. -/
def wStateR : LibraryState :=
  { books := [wBook, wBook2], users := [wAlice, wBob], authors := [],
    authorOf := [], borrows := [],
    rates := [{ username := "alice", isbn := "111", score := 5 }] }

/-- Alice and bob both rated book 111 with score 3 and nothing else: the
only candidate path for a recommendation to alice would reuse bob's single
rating for both hops. -/
def cState7 : LibraryState :=
  { books := [wBook], users := [wAlice, wBob], authors := [], authorOf := [],
    borrows := [],
    rates := [{ username := "alice", isbn := "111", score := 3 },
      { username := "bob", isbn := "111", score := 3 }] }

/-- Alice and bob agree on book 111, and bob also rated book 222 with 4. -/
def w7State : LibraryState :=
  { books := [wBook, wBook2], users := [wAlice, wBob], authors := [], authorOf := [],
    borrows := [],
    rates := [{ username := "alice", isbn := "111", score := 3 },
      { username := "bob", isbn := "111", score := 3 },
      { username := "bob", isbn := "222", score := 4 }] }

/-! ### Helper lemmas about lastSuch -/

theorem foldl_lastSuch_no_match {α : Type} (p : α → Bool) (l : List α) (acc : Option α)
    (h : ∀ x ∈ l, ¬ p x) :
    l.foldl (fun acc x => if p x then some x else acc) acc = acc := by
  induction l generalizing acc with
  | nil => rfl
  | cons a t ih =>
    simp only [List.foldl_cons]
    rw [if_neg (h a (by simp))]
    exact ih _ fun x hx => h x (by simp [hx])

theorem foldl_lastSuch_keep {α : Type} (p : α → Bool) (l : List α) (a : α)
    (h : ∀ y ∈ l, p y → y = a) :
    l.foldl (fun acc x => if p x then some x else acc) (some a) = some a := by
  induction l with
  | nil => rfl
  | cons b t ih =>
    simp only [List.foldl_cons]
    by_cases hb : p b
    · rw [if_pos hb, h b (by simp) hb]
      exact ih fun y hy => h y (by simp [hy])
    · rw [if_neg hb]
      exact ih fun y hy => h y (by simp [hy])

theorem lastSuch_eq_some_of_unique {α : Type} (p : α → Bool) (l : List α) (a : α)
    (ha : a ∈ l) (hpa : p a)
    (huniq : ∀ x ∈ l, ∀ y ∈ l, p x → p y → x = y) :
    lastSuch p l = some a := by
  induction l with
  | nil => cases ha
  | cons b t ih =>
    unfold lastSuch
    simp only [List.foldl_cons]
    by_cases hb : p b
    · have hba : b = a := huniq b (by simp) a ha hb hpa
      rw [if_pos hb, hba]
      exact foldl_lastSuch_keep p t a fun y hy hpy =>
        huniq y (by simp [hy]) a ha hpy hpa
    · rw [if_neg hb]
      have hat : a ∈ t := by
        rcases List.mem_cons.mp ha with h | h
        · exact absurd (h ▸ hpa) hb
        · exact h
      exact ih hat fun x hx y hy => huniq x (by simp [hx]) y (by simp [hy])

theorem foldl_lastSuch_result {α : Type} (p : α → Bool) (l : List α) (acc : Option α)
    (a : α) (h : l.foldl (fun acc x => if p x then some x else acc) acc = some a) :
    (a ∈ l ∧ p a) ∨ acc = some a := by
  induction l generalizing acc with
  | nil => exact Or.inr h
  | cons b t ih =>
    simp only [List.foldl_cons] at h
    rcases ih _ h with ⟨hm, hp⟩ | hacc
    · exact Or.inl ⟨by simp [hm], hp⟩
    · by_cases hb : p b
      · rw [if_pos hb] at hacc
        cases hacc
        exact Or.inl ⟨by simp, hb⟩
      · rw [if_neg hb] at hacc
        exact Or.inr hacc

theorem lastSuch_mem {α : Type} {p : α → Bool} {l : List α} {a : α}
    (h : lastSuch p l = some a) : a ∈ l ∧ p a := by
  rcases foldl_lastSuch_result p l none a h with h' | h'
  · exact h'
  · cases h'

theorem foldl_lastSuch_isSome {α : Type} (p : α → Bool) (l : List α) (acc : Option α)
    (hacc : acc.isSome) :
    (l.foldl (fun acc x => if p x then some x else acc) acc).isSome := by
  induction l generalizing acc with
  | nil => exact hacc
  | cons b t ih =>
    simp only [List.foldl_cons]
    by_cases hb : p b
    · rw [if_pos hb]; exact ih _ rfl
    · rw [if_neg hb]; exact ih _ hacc

theorem lastSuch_isSome_of_mem {α : Type} {p : α → Bool} {l : List α} {a : α}
    (ha : a ∈ l) (hpa : p a) : (lastSuch p l).isSome := by
  induction l with
  | nil => cases ha
  | cons b t ih =>
    unfold lastSuch
    simp only [List.foldl_cons]
    by_cases hb : p b
    · rw [if_pos hb]
      exact foldl_lastSuch_isSome p t (some b) rfl
    · rw [if_neg hb]
      have hat : a ∈ t := by
        rcases List.mem_cons.mp ha with h | h
        · exact absurd (h ▸ hpa) hb
        · exact h
      exact ih hat

theorem lastSuch_eq_none_iff {α : Type} (p : α → Bool) (l : List α) :
    lastSuch p l = none ↔ ∀ x ∈ l, ¬ p x := by
  constructor
  · intro h x hx hp
    have := lastSuch_isSome_of_mem hx hp
    rw [h] at this
    cases this
  · intro h
    exact foldl_lastSuch_no_match p l none h

theorem lastSuch_map {α : Type} (p : α → Bool) (g : α → α)
    (hg : ∀ x, p (g x) = p x) (l : List α) :
    lastSuch p (l.map g) = (lastSuch p l).map g := by
  suffices h : ∀ acc : Option α,
      (l.map g).foldl (fun acc x => if p x then some x else acc) (acc.map g) =
        (l.foldl (fun acc x => if p x then some x else acc) acc).map g from h none
  induction l with
  | nil => intro acc; rfl
  | cons a t ih =>
    intro acc
    simp only [List.map_cons, List.foldl_cons, hg a]
    by_cases hb : p a
    · rw [if_pos hb, if_pos hb]
      exact ih (some a)
    · rw [if_neg hb, if_neg hb]
      exact ih acc

/-! ### Helper lemmas about the state operations -/

theorem getBook_mem {s : LibraryState} {isbn : String} {b : Book}
    (h : getBook s isbn = some b) : b ∈ s.books ∧ b.isbn = isbn := by
  have := lastSuch_mem h
  exact ⟨this.1, by simpa using this.2⟩

theorem getBook_eq_of_mem {s : LibraryState} {isbn : String} {bk b : Book}
    (hu : UniqueBooks s) (h : getBook s isbn = some bk)
    (hb : b ∈ s.books) (hisbn : b.isbn = isbn) : b = bk := by
  rcases getBook_mem h with ⟨hmem, hkey⟩
  by_contra hne
  exact (hu.forall (fun _ _ h => (h ∘ Eq.symm)) hb hmem hne) (hisbn.trans hkey.symm)

theorem getBook_isSome_iff {s : LibraryState} {isbn : String} :
    (getBook s isbn).isSome ↔ bookExists s isbn := by
  constructor
  · intro h
    rcases Option.isSome_iff_exists.mp h with ⟨b, hb⟩
    rcases getBook_mem hb with ⟨hm, hk⟩
    exact ⟨b, hm, hk⟩
  · rintro ⟨b, hm, hk⟩
    exact lastSuch_isSome_of_mem hm (by simpa using hk)

theorem getUser_mem {s : LibraryState} {username : String} {u : User}
    (h : getUser s username = some u) : u ∈ s.users ∧ u.username = username := by
  have := lastSuch_mem h
  exact ⟨this.1, by simpa using this.2⟩

theorem getUser_isSome_iff {s : LibraryState} {username : String} :
    (getUser s username).isSome ↔ userExists s username := by
  constructor
  · intro h
    rcases Option.isSome_iff_exists.mp h with ⟨u, hu⟩
    rcases getUser_mem hu with ⟨hm, hk⟩
    exact ⟨u, hm, hk⟩
  · rintro ⟨u, hm, hk⟩
    exact lastSuch_isSome_of_mem hm (by simpa using hk)

theorem getBook_shift (s : LibraryState) (i : String) (d : Int) (j : String) :
    getBook (shiftBookQuantity s i d) j =
      (getBook s j).map
        (fun b => if b.isbn = i then { b with quantity := b.quantity + d } else b) := by
  unfold getBook shiftBookQuantity
  exact lastSuch_map _ _ (fun b => by by_cases h : b.isbn = i <;> simp [h]) s.books

theorem getBook_shift_self {s : LibraryState} {i : String} {b : Book} (d : Int)
    (h : getBook s i = some b) :
    getBook (shiftBookQuantity s i d) i = some { b with quantity := b.quantity + d } := by
  rw [getBook_shift, h, Option.map_some']
  rw [if_pos (getBook_mem h).2]

theorem getBook_shift_other (s : LibraryState) {i j : String} (d : Int) (hij : j ≠ i) :
    getBook (shiftBookQuantity s i d) j = getBook s j := by
  rw [getBook_shift]
  cases hb : getBook s j with
  | none => rfl
  | some b =>
    rw [Option.map_some', if_neg (by rw [(getBook_mem hb).2]; exact hij)]

theorem mergeBorrows_frame (s : LibraryState) (isbn username : String) :
    (mergeBorrows s isbn username).books = s.books ∧
    (mergeBorrows s isbn username).users = s.users ∧
    (mergeBorrows s isbn username).authors = s.authors ∧
    (mergeBorrows s isbn username).authorOf = s.authorOf ∧
    (mergeBorrows s isbn username).rates = s.rates := by
  unfold mergeBorrows
  split <;> exact ⟨rfl, rfl, rfl, rfl, rfl⟩

theorem shiftBookQuantity_frame (s : LibraryState) (isbn : String) (d : Int) :
    (shiftBookQuantity s isbn d).users = s.users ∧
    (shiftBookQuantity s isbn d).authors = s.authors ∧
    (shiftBookQuantity s isbn d).authorOf = s.authorOf ∧
    (shiftBookQuantity s isbn d).borrows = s.borrows ∧
    (shiftBookQuantity s isbn d).rates = s.rates :=
  ⟨rfl, rfl, rfl, rfl, rfl⟩

/-! ### Helper lemmas about the Borrows ledger -/

theorem borrow_key_unique {l : List Borrow} {u i : String}
    (huniq : l.Pairwise (fun a b => ¬(a.username = b.username ∧ a.isbn = b.isbn)))
    {a b : Borrow} (ha : a ∈ l) (hb : b ∈ l)
    (hka : a.username = u ∧ a.isbn = i) (hkb : b.username = u ∧ b.isbn = i) : a = b := by
  by_contra hne
  have hsym : Symmetric (fun a b : Borrow =>
      ¬(a.username = b.username ∧ a.isbn = b.isbn)) :=
    fun x y h hk => h ⟨hk.1.symm, hk.2.symm⟩
  exact huniq.forall hsym ha hb hne
    ⟨hka.1.trans hkb.1.symm, hka.2.trans hkb.2.symm⟩

theorem filter_key_singleton {l : List Borrow} {u i : String}
    (huniq : l.Pairwise (fun a b => ¬(a.username = b.username ∧ a.isbn = b.isbn)))
    {br0 : Borrow} (hmem : br0 ∈ l) (hkey : br0.username = u ∧ br0.isbn = i) :
    l.filter (fun br => br.username = u ∧ br.isbn = i) = [br0] := by
  induction l with
  | nil => cases hmem
  | cons b t ih =>
    rcases List.pairwise_cons.mp huniq with ⟨hhead, htail⟩
    by_cases hb : b.username = u ∧ b.isbn = i
    · have hbb : br0 = b := by
        rcases List.mem_cons.mp hmem with h | h
        · exact h
        · exact absurd ⟨hb.1.trans hkey.1.symm, hb.2.trans hkey.2.symm⟩ (hhead br0 h)
      have htno : ∀ y ∈ t, ¬(y.username = u ∧ y.isbn = i) := fun y hy hk =>
        hhead y hy ⟨hb.1.trans hk.1.symm, hb.2.trans hk.2.symm⟩
      simp only [List.filter_cons, decide_eq_true_eq, if_pos hb, hbb]
      rw [List.filter_eq_nil_iff.mpr (by simpa using htno)]
    · have hbt : br0 ∈ t := by
        rcases List.mem_cons.mp hmem with h | h
        · exact absurd (h ▸ hkey) hb
        · exact h
      simp only [List.filter_cons, decide_eq_true_eq, if_neg hb]
      exact ih htail hbt

theorem sum_filter_map_adjust {l : List Borrow} {u i : String} (f : Int → Int)
    (huniq : l.Pairwise (fun a b => ¬(a.username = b.username ∧ a.isbn = b.isbn)))
    {br0 : Borrow} (hmem : br0 ∈ l) (hkey : br0.username = u ∧ br0.isbn = i) :
    (((l.map (fun br => if br.username = u ∧ br.isbn = i then
        { br with quantity := f br.quantity } else br)).filter
        (fun br => br.isbn = i)).map Borrow.quantity).sum =
      ((l.filter (fun br => br.isbn = i)).map Borrow.quantity).sum
        - br0.quantity + f br0.quantity := by
  induction l with
  | nil => cases hmem
  | cons b t ih =>
    rcases List.pairwise_cons.mp huniq with ⟨hhead, htail⟩
    by_cases hb : b.username = u ∧ b.isbn = i
    · have hbb : br0 = b := by
        rcases List.mem_cons.mp hmem with h | h
        · exact h
        · exact absurd ⟨hb.1.trans hkey.1.symm, hb.2.trans hkey.2.symm⟩ (hhead br0 h)
      have htno : ∀ y ∈ t, ¬(y.username = u ∧ y.isbn = i) := fun y hy hk =>
        hhead y hy ⟨hb.1.trans hk.1.symm, hb.2.trans hk.2.symm⟩
      subst hbb
      have hmap : t.map (fun br => if br.username = u ∧ br.isbn = i then
          { br with quantity := f br.quantity } else br) = t :=
        Eq.trans (List.map_congr_left fun y hy => if_neg (htno y hy)) (by simp)
      rw [List.map_cons, if_pos hb, hmap]
      simp only [List.filter_cons, decide_eq_true_eq]
      rw [if_pos (show ({ br0 with quantity := f br0.quantity } : Borrow).isbn = i from hb.2),
        if_pos hb.2]
      simp only [List.map_cons, List.sum_cons]
      omega
    · have hbt : br0 ∈ t := by
        rcases List.mem_cons.mp hmem with h | h
        · exact absurd (h ▸ hkey) hb
        · exact h
      have hrec := ih htail hbt
      rw [List.map_cons, if_neg hb]
      simp only [List.filter_cons, decide_eq_true_eq]
      by_cases hbi : b.isbn = i
      · rw [if_pos hbi, if_pos hbi]
        simp only [List.map_cons, List.sum_cons]
        omega
      · rw [if_neg hbi, if_neg hbi]
        exact hrec

theorem filter_map_adjust_other {l : List Borrow} {u i j : String} (hij : j ≠ i)
    (f : Int → Int) :
    (l.map (fun br => if br.username = u ∧ br.isbn = i then
        { br with quantity := f br.quantity } else br)).filter
      (fun br => br.isbn = j) = l.filter (fun br => br.isbn = j) := by
  induction l with
  | nil => rfl
  | cons b t ih =>
    rw [List.map_cons]
    by_cases hb : b.username = u ∧ b.isbn = i
    · have hbi : ¬ (b.isbn = j) := by rw [hb.2]; exact fun h => hij h.symm
      rw [if_pos hb]
      simp only [List.filter_cons, decide_eq_true_eq]
      rw [if_neg (show ¬ ({ b with quantity := f b.quantity } : Borrow).isbn = j from hbi),
        if_neg hbi]
      exact ih
    · rw [if_neg hb]
      simp only [List.filter_cons, decide_eq_true_eq]
      by_cases hbj : b.isbn = j
      · rw [if_pos hbj, if_pos hbj, ih]
      · rw [if_neg hbj, if_neg hbj]
        exact ih

theorem sum_filter_erase_self {l : List Borrow} {u i : String}
    (huniq : l.Pairwise (fun a b => ¬(a.username = b.username ∧ a.isbn = b.isbn)))
    {br0 : Borrow} (hmem : br0 ∈ l) (hkey : br0.username = u ∧ br0.isbn = i) :
    (((l.filter (fun br => ¬(br.username = u ∧ br.isbn = i))).filter
        (fun br => br.isbn = i)).map Borrow.quantity).sum =
      ((l.filter (fun br => br.isbn = i)).map Borrow.quantity).sum - br0.quantity := by
  induction l with
  | nil => cases hmem
  | cons b t ih =>
    rcases List.pairwise_cons.mp huniq with ⟨hhead, htail⟩
    by_cases hb : b.username = u ∧ b.isbn = i
    · have hbb : br0 = b := by
        rcases List.mem_cons.mp hmem with h | h
        · exact h
        · exact absurd ⟨hb.1.trans hkey.1.symm, hb.2.trans hkey.2.symm⟩ (hhead br0 h)
      have htno : ∀ y ∈ t, ¬(y.username = u ∧ y.isbn = i) := fun y hy hk =>
        hhead y hy ⟨hb.1.trans hk.1.symm, hb.2.trans hk.2.symm⟩
      subst hbb
      have hfilt : t.filter (fun br => ¬(br.username = u ∧ br.isbn = i)) = t :=
        List.filter_eq_self.mpr fun y hy => decide_eq_true (htno y hy)
      simp only [List.filter_cons, decide_eq_true_eq]
      rw [if_neg (fun hn => hn hb), hfilt, if_pos hb.2]
      simp only [List.map_cons, List.sum_cons]
      omega
    · have hbt : br0 ∈ t := by
        rcases List.mem_cons.mp hmem with h | h
        · exact absurd (h ▸ hkey) hb
        · exact h
      have hrec := ih htail hbt
      simp only [List.filter_cons, decide_eq_true_eq]
      rw [if_pos hb]
      simp only [List.filter_cons, decide_eq_true_eq]
      by_cases hbi : b.isbn = i
      · rw [if_pos hbi, if_pos hbi]
        simp only [List.map_cons, List.sum_cons]
        omega
      · rw [if_neg hbi, if_neg hbi]
        exact hrec

theorem find?_keyrec_cons {u i : String} (a : Borrow) (l : List Borrow)
    (h : a.username = u ∧ a.isbn = i) :
    (a :: l).find? (fun br => br.username = u ∧ br.isbn = i) = some a := by
  simp [List.find?_cons, h]

theorem find?_keyrec_cons_neg {u i : String} (a : Borrow) (l : List Borrow)
    (h : ¬(a.username = u ∧ a.isbn = i)) :
    (a :: l).find? (fun br => br.username = u ∧ br.isbn = i) =
      l.find? (fun br => br.username = u ∧ br.isbn = i) := by
  simp only [List.find?_cons, decide_eq_false h, cond_false]

theorem find?_key_map_adjust (f : Int → Int) {l : List Borrow} {u i : String} :
    (l.map (fun br => if br.username = u ∧ br.isbn = i then
        { br with quantity := f br.quantity } else br)).find?
      (fun br => br.username = u ∧ br.isbn = i) =
    (l.find? (fun br => br.username = u ∧ br.isbn = i)).map
      (fun br => { br with quantity := f br.quantity }) := by
  induction l with
  | nil => rfl
  | cons b t ih =>
    rw [List.map_cons]
    by_cases hb : b.username = u ∧ b.isbn = i
    · rw [if_pos hb,
        find?_keyrec_cons _ _
          (show ({ b with quantity := f b.quantity } : Borrow).username = u ∧
            ({ b with quantity := f b.quantity } : Borrow).isbn = i from hb),
        find?_keyrec_cons _ _ hb, Option.map_some']
    · rw [if_neg hb, find?_keyrec_cons_neg _ _ hb, find?_keyrec_cons_neg _ _ hb]
      exact ih

theorem find?_key_erase {l : List Borrow} {u i : String} :
    (l.filter (fun br => ¬(br.username = u ∧ br.isbn = i))).find?
      (fun br => br.username = u ∧ br.isbn = i) = none := by
  rw [List.find?_eq_none]
  intro x hx
  have := List.of_mem_filter hx
  exact fun hc => (of_decide_eq_true this) (of_decide_eq_true hc)

theorem filter_erase_other {l : List Borrow} {u i j : String} (hij : j ≠ i) :
    (l.filter (fun br => ¬(br.username = u ∧ br.isbn = i))).filter
      (fun br => br.isbn = j) = l.filter (fun br => br.isbn = j) := by
  induction l with
  | nil => rfl
  | cons b t ih =>
    simp only [List.filter_cons, decide_eq_true_eq]
    by_cases hb : b.username = u ∧ b.isbn = i
    · have hbi : ¬ (b.isbn = j) := by rw [hb.2]; exact fun h => hij h.symm
      rw [if_neg (fun hn => hn hb), ih, if_neg hbi]
    · rw [if_pos hb]
      simp only [List.filter_cons, decide_eq_true_eq]
      by_cases hbj : b.isbn = j
      · rw [if_pos hbj, if_pos hbj, ih]
      · rw [if_neg hbj, if_neg hbj]
        exact ih

/-! ### State-level ledger lemmas -/

theorem getBook_mergeBorrows (s : LibraryState) (isbn username j : String) :
    getBook (mergeBorrows s isbn username) j = getBook s j := by
  unfold mergeBorrows
  split <;> rfl

theorem borrowSum_set_borrows (s : LibraryState) (x : List Borrow) (j : String) :
    borrowSum { s with borrows := x } j =
      ((x.filter (fun br => br.isbn = j)).map Borrow.quantity).sum := rfl

theorem borrowSum_shift (s : LibraryState) (isbn : String) (d : Int) (j : String) :
    borrowSum (shiftBookQuantity s isbn d) j = borrowSum s j := rfl

theorem borrowEntry_shift (s : LibraryState) (isbn : String) (d : Int) (u i : String) :
    borrowEntry (shiftBookQuantity s isbn d) u i = borrowEntry s u i := rfl

theorem borrowEntry_none_iff_not_any (s : LibraryState) (username isbn : String) :
    borrowEntry s username isbn = none ↔
      ¬ (s.borrows.any (fun br => br.username = username ∧ br.isbn = isbn) = true) := by
  unfold borrowEntry
  rw [List.find?_eq_none, List.any_eq_true]
  exact ⟨fun h hc => by rcases hc with ⟨x, hx, hp⟩; exact h x hx hp,
    fun h x hx hp => h ⟨x, hx, hp⟩⟩

theorem borrowSum_mergeBorrows_self (s : LibraryState) (isbn username : String)
    (hu : UniqueBorrows s) :
    borrowSum (mergeBorrows s isbn username) isbn = borrowSum s isbn + 1 := by
  unfold mergeBorrows
  by_cases hex : s.borrows.any (fun br => br.username = username ∧ br.isbn = isbn) = true
  · rw [if_pos hex, borrowSum_set_borrows]
    rcases List.any_eq_true.mp hex with ⟨br0, hmem, hkey⟩
    have hkey' : br0.username = username ∧ br0.isbn = isbn := of_decide_eq_true hkey
    have h := sum_filter_map_adjust (fun q => q + 1) hu hmem hkey'
    simp only [] at h
    unfold borrowSum
    rw [h]
    omega
  · rw [if_neg hex, borrowSum_set_borrows]
    unfold borrowSum
    rw [List.filter_append]
    have hnew : ([{ username := username, isbn := isbn, quantity := 1 }] : List Borrow).filter
        (fun br => br.isbn = isbn) = [{ username := username, isbn := isbn, quantity := 1 }] := by
      simp
    rw [hnew, List.map_append, List.sum_append]
    simp

theorem borrowSum_mergeBorrows_other (s : LibraryState) (isbn username j : String)
    (hj : j ≠ isbn) :
    borrowSum (mergeBorrows s isbn username) j = borrowSum s j := by
  unfold mergeBorrows
  by_cases hex : s.borrows.any (fun br => br.username = username ∧ br.isbn = isbn) = true
  · rw [if_pos hex, borrowSum_set_borrows]
    unfold borrowSum
    rw [filter_map_adjust_other hj (fun q => q + 1)]
  · rw [if_neg hex, borrowSum_set_borrows]
    unfold borrowSum
    rw [List.filter_append]
    have hnew : ([{ username := username, isbn := isbn, quantity := 1 }] : List Borrow).filter
        (fun br => br.isbn = j) = [] := by
      simp [show ¬ ((isbn : String) = j) from fun h => hj h.symm]
    rw [hnew, List.map_append, List.sum_append]
    simp

theorem check_out_cases (s : LibraryState) (isbn username : String) :
    check_out_book_for_user s isbn username = (false, s) ∨
    (∃ b u, getBook s isbn = some b ∧ 0 < b.quantity ∧ getUser s username = some u ∧
      check_out_book_for_user s isbn username =
        (true, shiftBookQuantity (mergeBorrows s isbn username) isbn (-1))) := by
  unfold check_out_book_for_user
  cases hB : getBook s isbn with
  | none => exact Or.inl rfl
  | some b =>
    dsimp only
    by_cases hq : b.quantity ≤ 0
    · rw [if_pos hq]
      exact Or.inl rfl
    · rw [if_neg hq]
      cases hU : getUser s username with
      | none => exact Or.inl rfl
      | some u => exact Or.inr ⟨b, u, rfl, by omega, rfl, rfl⟩

theorem matchBorrows_some_elim {s : LibraryState} {isbn username : String} {br : Borrow}
    (h : matchBorrows s isbn username = some br) :
    userExists s username ∧ bookExists s isbn ∧ br ∈ s.borrows ∧
      br.username = username ∧ br.isbn = isbn := by
  unfold matchBorrows at h
  by_cases hg : userExists s username ∧ bookExists s isbn
  · rw [if_pos hg] at h
    have hm := lastSuch_mem h
    have hk := of_decide_eq_true hm.2
    exact ⟨hg.1, hg.2, hm.1, hk.1, hk.2⟩
  · rw [if_neg hg] at h
    cases h

theorem return_cases (s : LibraryState) (isbn username : String) :
    return_book_for_user s isbn username = (false, s) ∨
    (∃ br, matchBorrows s isbn username = some br ∧
      ((br.quantity = 1 ∧ return_book_for_user s isbn username =
          (true, shiftBookQuantity
            { s with borrows :=
                s.borrows.filter (fun x => ¬(x.username = username ∧ x.isbn = isbn)) }
            isbn ((s.borrows.filter
              (fun x => x.username = username ∧ x.isbn = isbn)).length : Int))) ∨
        (br.quantity ≠ 1 ∧ return_book_for_user s isbn username =
          (true, shiftBookQuantity
            { s with borrows := s.borrows.map (fun x =>
                if x.username = username ∧ x.isbn = isbn then
                  { x with quantity := x.quantity - 1 }
                else x) }
            isbn ((s.borrows.filter
              (fun x => x.username = username ∧ x.isbn = isbn)).length : Int))))) := by
  unfold return_book_for_user
  cases hm : matchBorrows s isbn username with
  | none => exact Or.inl rfl
  | some br =>
    dsimp only
    by_cases h1 : br.quantity = 1
    · rw [if_pos h1]
      exact Or.inr ⟨br, rfl, Or.inl ⟨h1, rfl⟩⟩
    · rw [if_neg h1]
      exact Or.inr ⟨br, rfl, Or.inr ⟨h1, rfl⟩⟩

theorem countsPos_merge (s : LibraryState) (isbn username : String)
    (hc : BorrowCountsAtLeastOne s) :
    BorrowCountsAtLeastOne (mergeBorrows s isbn username) := by
  unfold BorrowCountsAtLeastOne mergeBorrows
  split
  · dsimp only
    intro br' hbr'
    rcases List.mem_map.mp hbr' with ⟨x, hx, hxe⟩
    by_cases hk : x.username = username ∧ x.isbn = isbn
    · rw [if_pos hk] at hxe
      subst hxe
      have := hc x hx
      dsimp only
      omega
    · rw [if_neg hk] at hxe
      subst hxe
      exact hc x hx
  · dsimp only
    intro br' hbr'
    rcases List.mem_append.mp hbr' with h | h
    · exact hc br' h
    · rw [List.mem_singleton] at h
      subst h
      exact le_refl 1

/-! ### Claim theorems -/

/-- C1: the Borrow Ledger invariant is preserved by both ledger transitions:
for every book the conserved total (quantity plus the sum of Borrows counts)
is unchanged by check_out_book_for_user and return_book_for_user, no book
quantity becomes negative, and every surviving Borrows relation keeps a
count of at least 1 (the count-1 return deletes the relation instead of
storing 0). -/
theorem stock_invariant_preserved (s : LibraryState) (isbn username : String)
    (hub : UniqueBooks s) (hubr : UniqueBorrows s)
    (hc : BorrowCountsAtLeastOne s) (hq : BookQuantitiesNonneg s) :
    (BorrowCountsAtLeastOne (check_out_book_for_user s isbn username).2 ∧
     BookQuantitiesNonneg (check_out_book_for_user s isbn username).2 ∧
     ∀ j, stockTotal (check_out_book_for_user s isbn username).2 j = stockTotal s j) ∧
    (BorrowCountsAtLeastOne (return_book_for_user s isbn username).2 ∧
     BookQuantitiesNonneg (return_book_for_user s isbn username).2 ∧
     ∀ j, stockTotal (return_book_for_user s isbn username).2 j = stockTotal s j) := by
  constructor
  · rcases check_out_cases s isbn username with hco | ⟨b, u, hB, hq0, hU, hco⟩
    · rw [hco]
      exact ⟨hc, hq, fun j => rfl⟩
    · rw [hco]
      dsimp only
      refine ⟨?_, ?_, ?_⟩
      · intro br hbr
        exact countsPos_merge s isbn username hc br hbr
      · intro b' hb'
        have hbooks : (shiftBookQuantity (mergeBorrows s isbn username) isbn (-1)).books =
            s.books.map (fun x =>
              if x.isbn = isbn then { x with quantity := x.quantity + (-1) } else x) := by
          show (mergeBorrows s isbn username).books.map _ = _
          rw [(mergeBorrows_frame s isbn username).1]
        rw [hbooks] at hb'
        rcases List.mem_map.mp hb' with ⟨x, hx, hxe⟩
        by_cases hk : x.isbn = isbn
        · rw [if_pos hk] at hxe
          subst hxe
          have hxb : x = b := getBook_eq_of_mem hub hB hx hk
          show 0 ≤ x.quantity + (-1)
          rw [hxb]
          omega
        · rw [if_neg hk] at hxe
          subst hxe
          exact hq x hx
      · intro j
        unfold stockTotal
        by_cases hj : j = isbn
        · subst hj
          rw [getBook_shift_self (-1) (show getBook (mergeBorrows s j username) j = some b by
              rw [getBook_mergeBorrows]; exact hB),
            borrowSum_shift, borrowSum_mergeBorrows_self s j username hubr, hB]
          simp only [Option.map_some', Option.getD_some]
          omega
        · rw [getBook_shift_other (mergeBorrows s isbn username) (-1) hj,
            getBook_mergeBorrows, borrowSum_shift,
            borrowSum_mergeBorrows_other s isbn username j hj]
  · rcases return_cases s isbn username with hre | ⟨br, hm, hcase⟩
    · rw [hre]
      exact ⟨hc, hq, fun j => rfl⟩
    · rcases matchBorrows_some_elim hm with ⟨hUex, hBex, hbrmem, hbru, hbri⟩
      have hfilt : s.borrows.filter (fun x => x.username = username ∧ x.isbn = isbn) = [br] :=
        filter_key_singleton hubr hbrmem ⟨hbru, hbri⟩
      have hrows : ((s.borrows.filter
          (fun x => x.username = username ∧ x.isbn = isbn)).length : Int) = 1 := by
        rw [hfilt]
        rfl
      rcases Option.isSome_iff_exists.mp (getBook_isSome_iff.mpr hBex) with ⟨bk, hbk⟩
      rcases hcase with ⟨h1, hre⟩ | ⟨h1, hre⟩
      · rw [hre]
        dsimp only
        refine ⟨?_, ?_, ?_⟩
        · intro br' hbr'
          exact hc br' (List.mem_of_mem_filter hbr')
        · intro b' hb'
          rcases List.mem_map.mp hb' with ⟨x, hx, hxe⟩
          by_cases hk : x.isbn = isbn
          · rw [if_pos hk] at hxe
            subst hxe
            have := hq x hx
            show 0 ≤ x.quantity + _
            omega
          · rw [if_neg hk] at hxe
            subst hxe
            exact hq x hx
        · intro j
          unfold stockTotal
          by_cases hj : j = isbn
          · subst hj
            rw [getBook_shift_self _ (show getBook { s with borrows :=
                (s.borrows.filter (fun x => ¬(x.username = username ∧ x.isbn = j))) } j =
                  some bk from hbk),
              borrowSum_shift, borrowSum_set_borrows, hbk,
              sum_filter_erase_self hubr hbrmem ⟨hbru, hbri⟩, hrows]
            have hplain : borrowSum s j =
                ((s.borrows.filter (fun x => x.isbn = j)).map Borrow.quantity).sum := rfl
            rw [hplain]
            simp only [Option.map_some', Option.getD_some]
            omega
          · rw [getBook_shift_other _ _ hj, borrowSum_shift, borrowSum_set_borrows,
              filter_erase_other hj]
            have hgb : getBook { s with borrows :=
                (s.borrows.filter (fun x => ¬(x.username = username ∧ x.isbn = isbn))) } j =
                  getBook s j := rfl
            rw [hgb]
            have hplain : borrowSum s j =
                ((s.borrows.filter (fun x => x.isbn = j)).map Borrow.quantity).sum := rfl
            rw [hplain]
      · rw [hre]
        dsimp only
        refine ⟨?_, ?_, ?_⟩
        · intro br' hbr'
          rcases List.mem_map.mp hbr' with ⟨x, hx, hxe⟩
          by_cases hk : x.username = username ∧ x.isbn = isbn
          · rw [if_pos hk] at hxe
            subst hxe
            have hxbr : x = br := borrow_key_unique hubr hx hbrmem hk ⟨hbru, hbri⟩
            have := hc x hx
            show 1 ≤ x.quantity - 1
            rw [hxbr] at this ⊢
            omega
          · rw [if_neg hk] at hxe
            subst hxe
            exact hc x hx
        · intro b' hb'
          rcases List.mem_map.mp hb' with ⟨x, hx, hxe⟩
          by_cases hk : x.isbn = isbn
          · rw [if_pos hk] at hxe
            subst hxe
            have := hq x hx
            show 0 ≤ x.quantity + _
            omega
          · rw [if_neg hk] at hxe
            subst hxe
            exact hq x hx
        · intro j
          unfold stockTotal
          by_cases hj : j = isbn
          · subst hj
            rw [getBook_shift_self _ (show getBook { s with borrows := s.borrows.map (fun x =>
                if x.username = username ∧ x.isbn = j then
                  { x with quantity := x.quantity - 1 } else x) } j = some bk from hbk),
              borrowSum_shift, borrowSum_set_borrows, hbk, hrows]
            have hsum := sum_filter_map_adjust (fun q => q - 1) hubr hbrmem ⟨hbru, hbri⟩
            simp only [] at hsum
            rw [hsum]
            have hplain : borrowSum s j =
                ((s.borrows.filter (fun x => x.isbn = j)).map Borrow.quantity).sum := rfl
            rw [hplain]
            simp only [Option.map_some', Option.getD_some]
            omega
          · rw [getBook_shift_other _ _ hj, borrowSum_shift, borrowSum_set_borrows,
              filter_map_adjust_other hj (fun q => q - 1)]
            have hgb : getBook { s with borrows := s.borrows.map (fun x =>
                if x.username = username ∧ x.isbn = isbn then
                  { x with quantity := x.quantity - 1 } else x) } j = getBook s j := rfl
            rw [hgb]
            have hplain : borrowSum s j =
                ((s.borrows.filter (fun x => x.isbn = j)).map Borrow.quantity).sum := rfl
            rw [hplain]

/-- Witness for C1 at a concrete state holding one borrow. -/
theorem stock_invariant_preserved_witness :
    BorrowCountsAtLeastOne (check_out_book_for_user wState "111" "alice").2 ∧
    stockTotal (return_book_for_user wState "111" "alice").2 "111" = stockTotal wState "111" :=
  ⟨(stock_invariant_preserved wState "111" "alice" (by decide) (by decide) (by decide)
      (by decide)).1.1,
    (stock_invariant_preserved wState "111" "alice" (by decide) (by decide) (by decide)
      (by decide)).2.2.2 "111"⟩

/-- C2: check_out_book_for_user satisfies the checkout contract: when the
book is missing, the user is missing, or the book's quantity is not
positive, it returns False with the state unchanged (no mutation); otherwise
it returns True, creates the Borrows relation with count 1 when none exists
or increments the existing count by 1, and in the same operation decrements
the book's quantity by 1, leaving users, ratings and authorship untouched. -/
theorem check_out_contract (s : LibraryState) (isbn username : String) :
    ((getBook s isbn = none ∨ getUser s username = none ∨
        (∃ b, getBook s isbn = some b ∧ b.quantity ≤ 0)) →
      check_out_book_for_user s isbn username = (false, s)) ∧
    (∀ b u, getBook s isbn = some b → 0 < b.quantity → getUser s username = some u →
      (check_out_book_for_user s isbn username).1 = true ∧
      (getBook (check_out_book_for_user s isbn username).2 isbn).map Book.quantity =
        some (b.quantity - 1) ∧
      ((borrowEntry s username isbn = none ∧
          borrowEntry (check_out_book_for_user s isbn username).2 username isbn =
            some { username := username, isbn := isbn, quantity := 1 }) ∨
        (∃ br, borrowEntry s username isbn = some br ∧
          borrowEntry (check_out_book_for_user s isbn username).2 username isbn =
            some { br with quantity := br.quantity + 1 })) ∧
      (check_out_book_for_user s isbn username).2.users = s.users ∧
      (check_out_book_for_user s isbn username).2.rates = s.rates ∧
      (check_out_book_for_user s isbn username).2.authors = s.authors ∧
      (check_out_book_for_user s isbn username).2.authorOf = s.authorOf) := by
  constructor
  · rintro (hB | hU | ⟨b, hB, hq⟩)
    · simp [check_out_book_for_user, hB]
    · unfold check_out_book_for_user
      cases hB : getBook s isbn with
      | none => rfl
      | some b =>
        dsimp only
        by_cases hq : b.quantity ≤ 0
        · rw [if_pos hq]
        · rw [if_neg hq, hU]
    · simp [check_out_book_for_user, hB, hq]
  · intro b u hB hq hU
    have hexp : check_out_book_for_user s isbn username =
        (true, shiftBookQuantity (mergeBorrows s isbn username) isbn (-1)) := by
      unfold check_out_book_for_user
      rw [hB]
      dsimp only
      rw [if_neg (by omega), hU]
    rw [hexp]
    refine ⟨rfl, ?_, ?_, ?_, ?_, ?_, ?_⟩
    · have hgb : getBook (mergeBorrows s isbn username) isbn = some b := by
        rw [getBook_mergeBorrows]; exact hB
      rw [getBook_shift_self (-1) hgb, Option.map_some']
      congr 1
    · cases hbe : borrowEntry s username isbn with
      | none =>
        left
        refine ⟨rfl, ?_⟩
        have hnoany := (borrowEntry_none_iff_not_any s username isbn).mp hbe
        rw [borrowEntry_shift]
        unfold borrowEntry mergeBorrows
        rw [if_neg hnoany]
        show ((s.borrows ++ _).find? _) = _
        rw [List.find?_append]
        unfold borrowEntry at hbe
        rw [hbe, Option.none_or]
        exact find?_keyrec_cons _ _ ⟨rfl, rfl⟩
      | some br =>
        right
        refine ⟨br, rfl, ?_⟩
        have hany : s.borrows.any (fun br => br.username = username ∧ br.isbn = isbn) = true := by
          by_contra hc
          rw [(borrowEntry_none_iff_not_any s username isbn).mpr hc] at hbe
          cases hbe
        rw [borrowEntry_shift]
        unfold borrowEntry mergeBorrows
        rw [if_pos hany]
        show ((s.borrows.map _).find? _) = _
        have h := @find?_key_map_adjust (fun q => q + 1) s.borrows username isbn
        simp only [] at h
        rw [h]
        unfold borrowEntry at hbe
        rw [hbe, Option.map_some']
    · rw [(shiftBookQuantity_frame _ _ _).1, (mergeBorrows_frame _ _ _).2.1]
    · rw [(shiftBookQuantity_frame _ _ _).2.2.2.2, (mergeBorrows_frame _ _ _).2.2.2.2]
    · rw [(shiftBookQuantity_frame _ _ _).2.1, (mergeBorrows_frame _ _ _).2.2.1]
    · rw [(shiftBookQuantity_frame _ _ _).2.2.1, (mergeBorrows_frame _ _ _).2.2.2.1]

/-- Witness for C2 at a concrete state: a missing book fails and leaves the
state unchanged, and a checkout with stock succeeds. -/
theorem check_out_contract_witness :
    check_out_book_for_user wState "999" "alice" = (false, wState) ∧
    (check_out_book_for_user wState "111" "alice").1 = true :=
  ⟨(check_out_contract wState "999" "alice").1 (Or.inl (by decide)),
    ((check_out_contract wState "111" "alice").2 wBook wAlice (by decide) (by decide)
      (by decide)).1⟩

/-- C3: return_book_for_user satisfies the return contract: without a
Borrows relation for the pair it returns False with the state unchanged;
with one, it returns True, deletes the relation when its count is 1 or
decrements the count when it is larger, and increments the book's quantity
by 1, leaving users, ratings and authorship untouched. -/
theorem return_contract (s : LibraryState) (isbn username : String)
    (hubr : UniqueBorrows s) :
    (matchBorrows s isbn username = none →
      return_book_for_user s isbn username = (false, s)) ∧
    (∀ br, matchBorrows s isbn username = some br →
      (return_book_for_user s isbn username).1 = true ∧
      (br.quantity = 1 →
        borrowEntry (return_book_for_user s isbn username).2 username isbn = none) ∧
      (br.quantity ≠ 1 →
        borrowEntry (return_book_for_user s isbn username).2 username isbn =
          some { br with quantity := br.quantity - 1 }) ∧
      (getBook (return_book_for_user s isbn username).2 isbn).map Book.quantity =
        (getBook s isbn).map (fun b => b.quantity + 1) ∧
      (return_book_for_user s isbn username).2.users = s.users ∧
      (return_book_for_user s isbn username).2.rates = s.rates ∧
      (return_book_for_user s isbn username).2.authors = s.authors ∧
      (return_book_for_user s isbn username).2.authorOf = s.authorOf) := by
  constructor
  · intro h
    unfold return_book_for_user
    rw [h]
  · intro br hm
    rcases matchBorrows_some_elim hm with ⟨hUex, hBex, hbrmem, hbru, hbri⟩
    have hfilt : s.borrows.filter (fun x => x.username = username ∧ x.isbn = isbn) = [br] :=
      filter_key_singleton hubr hbrmem ⟨hbru, hbri⟩
    have hrows : ((s.borrows.filter
        (fun x => x.username = username ∧ x.isbn = isbn)).length : Int) = 1 := by
      rw [hfilt]
      rfl
    rcases Option.isSome_iff_exists.mp (getBook_isSome_iff.mpr hBex) with ⟨bk, hbk⟩
    have hfind : s.borrows.find? (fun x => x.username = username ∧ x.isbn = isbn) =
        some br := by
      cases hf : s.borrows.find? (fun x => x.username = username ∧ x.isbn = isbn) with
      | none =>
        exact absurd (decide_eq_true (show br.username = username ∧ br.isbn = isbn from
          ⟨hbru, hbri⟩)) (List.find?_eq_none.mp hf br hbrmem)
      | some x =>
        have hx := List.mem_of_find?_eq_some hf
        have hps := List.find?_some hf
        have hkx : x.username = username ∧ x.isbn = isbn := of_decide_eq_true hps
        rw [borrow_key_unique hubr hx hbrmem hkx ⟨hbru, hbri⟩]
    unfold return_book_for_user
    rw [hm]
    dsimp only
    by_cases h1 : br.quantity = 1
    · rw [if_pos h1]
      refine ⟨rfl, fun _ => ?_, fun hne => absurd h1 hne, ?_, rfl, rfl, rfl, rfl⟩
      · rw [borrowEntry_shift]
        exact find?_key_erase
      · rw [getBook_shift_self _ (show getBook { s with borrows :=
            (s.borrows.filter (fun x => ¬(x.username = username ∧ x.isbn = isbn))) } isbn =
              some bk from hbk), hbk, hrows]
        simp only [Option.map_some']
    · rw [if_neg h1]
      refine ⟨rfl, fun heq => absurd heq h1, fun _ => ?_, ?_, rfl, rfl, rfl, rfl⟩
      · rw [borrowEntry_shift]
        unfold borrowEntry
        have h := @find?_key_map_adjust (fun q => q - 1) s.borrows username isbn
        simp only [] at h
        show (s.borrows.map _).find? _ = _
        rw [h, hfind, Option.map_some']
      · rw [getBook_shift_self _ (show getBook { s with borrows := (s.borrows.map (fun x =>
            if x.username = username ∧ x.isbn = isbn then
              { x with quantity := x.quantity - 1 } else x)) } isbn = some bk from hbk),
          hbk, hrows]
        simp only [Option.map_some']

/-- Witness for C3: a pair with no borrow fails unchanged; alice returning
one of her two copies succeeds. -/
theorem return_contract_witness :
    return_book_for_user wState "111" "bob" = (false, wState) ∧
    (return_book_for_user wStateB "111" "alice").1 = true :=
  ⟨(return_contract wState "111" "bob" (by decide)).1 (by decide),
    ((return_contract wStateB "111" "alice" (by decide)).2
      { username := "alice", isbn := "111", quantity := 2 } (by decide)).1⟩

/-- C10: deleting a nonexistent entity reports success: with no matching
Book node remove_book returns True, with no matching User node remove_user
returns True, and the store is unchanged in both cases. -/
theorem remove_missing_reports_success (s : LibraryState) (isbn username : String)
    (hb : ¬ bookExists s isbn) (hu : ¬ userExists s username) :
    remove_book s isbn = (true, s) ∧ remove_user s username = (true, s) := by
  constructor
  · unfold remove_book
    have hcount : countBookUserRelations s isbn = 0 := by
      unfold countBookUserRelations
      rw [if_neg hb]
    rw [if_neg (by rw [hcount]; exact fun h => h rfl)]
    have hml : matchedAuthorLinks s isbn = [] := by
      unfold matchedAuthorLinks
      refine List.filter_eq_nil_iff.mpr fun e he hc => ?_
      exact hb (of_decide_eq_true hc).1
    have hfilt : s.authorOf.filter (fun e => ¬ linkMatches s isbn e) = s.authorOf :=
      List.filter_eq_self.mpr fun e he => decide_eq_true (fun hc => hb hc.1)
    have hbooks : s.books.filter (fun b => ¬ b.isbn = isbn) = s.books :=
      List.filter_eq_self.mpr fun b hbm => decide_eq_true (fun hc => hb ⟨b, hbm, hc⟩)
    simp only [hml, List.map_nil, List.foldl_nil, hfilt, hbooks]
  · unfold remove_user
    have hcount : countUserBookRelations s username = 0 := by
      unfold countUserBookRelations
      rw [if_neg hu]
    rw [if_neg (by rw [hcount]; exact fun h => h rfl)]
    have husers : s.users.filter (fun u => ¬ u.username = username) = s.users :=
      List.filter_eq_self.mpr fun u hum => decide_eq_true (fun hc => hu ⟨u, hum, hc⟩)
    rw [husers]

/-- Witness for C10 at a concrete state with an unknown isbn and username. -/
theorem remove_missing_reports_success_witness :
    remove_book wState "999" = (true, wState) ∧ remove_user wState "carol" = (true, wState) :=
  remove_missing_reports_success wState "999" "carol" (by decide) (by decide)

/-- C9 (amended): the numeric-field validation of edit_book rejects, before
any store statement runs and leaving the state unchanged, every value that
does not parse as an integer and every negative integer; 0 passes the
`value < 0` check for pages as well as quantity, so a zero pages value is
not rejected (see the counterexample). -/
theorem edit_book_numeric_validation (s : LibraryState) (isbn field v : String)
    (h : pyParseInt v = none ∨ ∃ n, pyParseInt v = some n ∧ n < 0) :
    edit_book_numeric s isbn field [v] = some (false, s) := by
  unfold edit_book_numeric
  rw [if_neg (show ¬ (([v] : List String).length > 1) by simp)]
  dsimp only
  rcases h with h | ⟨n, hn, hneg⟩
  · rw [h]
  · rw [hn]
    dsimp only
    rw [if_pos hneg]

/-- Witness for C9 (amended): a non-integer value and a negative value are
both rejected with the state unchanged. -/
theorem edit_book_numeric_validation_witness :
    edit_book_numeric wState "111" "pages" ["abc"] = some (false, wState) ∧
    edit_book_numeric wState "111" "quantity" ["-3"] = some (false, wState) :=
  ⟨edit_book_numeric_validation wState "111" "pages" "abc" (Or.inl (by decide)),
    edit_book_numeric_validation wState "111" "quantity" "-3"
      (Or.inr ⟨-3, by decide, by decide⟩)⟩

/-- Counterexample to C9 as stated: pages must be a positive integer, so a
value of 0 is outside the valid range, yet edit_book accepts it, issues the
store update and returns True with the book's pages set to 0. -/
theorem claim_c9_counterexample :
    edit_book_numeric wState "111" "pages" ["0"] =
      some (true, { wState with books := [{ wBook with pages := 0 }, wBook2] }) ∧
    pyParseInt "0" = some 0 := by
  constructor
  · decide
  · decide

/-- C8 (amended): every operation whose body is wrapped in try/except
CypherError — check_out_book_for_user, return_book_for_user, rate_book,
remove_book and remove_user — catches a store error and converts it into a
False result carrying the store's message unmodified, and no schedule of
store errors makes any of them raise; that cover extends to the writes they
issue through __run_session, which catches and logs the message itself (the
fourth conjunct injects the error on rate_book's CREATE, its one
__run_session write).  The authors branch of edit_book, whose first
session.run sits outside any try, instead propagates the store error to the
caller as an exception. -/
theorem store_error_flow :
    (∀ (s : LibraryState) (isbn username m : String) (rest : List (Option String)),
      check_out_run s isbn username (some m :: rest) = RunOutcome.returned false s [m] ∧
      return_book_run s isbn username (some m :: rest) = RunOutcome.returned false s [m] ∧
      remove_book_run s isbn (some m :: rest) = RunOutcome.returned false s [m] ∧
      remove_user_run s username (some m :: rest) = RunOutcome.returned false s [m]) ∧
    (∀ (s : LibraryState) (username isbn m : String) (score : Int)
        (rest : List (Option String)),
      rate_book_run s username isbn score (some m :: rest) =
        RunOutcome.returned false s [m]) ∧
    (∀ (s : LibraryState) (isbn username : String) (score : Int)
        (errs : List (Option String)),
      (check_out_run s isbn username errs).isRaised = false ∧
      (return_book_run s isbn username errs).isRaised = false ∧
      (rate_book_run s username isbn score errs).isRaised = false ∧
      (remove_book_run s isbn errs).isRaised = false ∧
      (remove_user_run s username errs).isRaised = false) ∧
    (∀ (s : LibraryState) (username isbn : String) (score : Int) (m : String)
        (rest : List (Option String)) (u : User) (bk : Book),
      getUser s username = some u → getBook s isbn = some bk →
      s.rates.find? (fun r => r.username = username ∧ r.isbn = isbn) = none →
      rate_book_run s username isbn score (none :: none :: none :: some m :: rest) =
        RunOutcome.returned false s [m]) ∧
    (∀ (s : LibraryState) (isbn : String) (names : List String) (m : String)
        (rest : List (Option String)),
      edit_book_authors_run s isbn names (some m :: rest) = RunOutcome.raised m) := by
  refine ⟨fun s isbn username m rest => ⟨rfl, rfl, rfl, rfl⟩,
    fun s username isbn m score rest => rfl, ?_, ?_, fun s isbn names m rest => rfl⟩
  · intro s isbn username score errs
    refine ⟨?_, ?_, ?_, ?_, ?_⟩
    · unfold check_out_run
      repeat' split <;> try rfl
    · unfold return_book_run
      repeat' split <;> try rfl
    · unfold rate_book_run
      repeat' split <;> try rfl
    · unfold remove_book_run
      repeat' split <;> try rfl
    · unfold remove_user_run
      repeat' split <;> try rfl
  · intro s username isbn score m rest u bk hu hb hf
    simp only [rate_book_run, takeCall, hu, hb, hf]

/-- Witness for the hypotheses of store_error_flow: in the concrete state
wState the user alice and the book 111 exist and carry no rating, and a
store error injected on rate_book's CREATE (issued through __run_session)
comes back as a False return logging the store's message. -/
theorem store_error_flow_witness :
    getUser wState "alice" = some wAlice ∧ getBook wState "111" = some wBook ∧
    wState.rates.find? (fun r => r.username = "alice" ∧ r.isbn = "111") = none ∧
    rate_book_run wState "alice" "111" 4 [none, none, none, some "boom"] =
      RunOutcome.returned false wState ["boom"] :=
  ⟨by decide, by decide, by decide,
    store_error_flow.2.2.2.1 wState "alice" "111" 4 "boom" [] wAlice wBook
      (by decide) (by decide) (by decide)⟩

/-- Counterexample to C8 as stated: with a store error injected on the very
first store statement of the authors branch of edit_book (the relation
deletion on line 124, a bare session.run), the call raises instead of
returning a failure result. -/
theorem claim_c8_counterexample :
    edit_book_authors_run wState "111" [] [some "boom"] = RunOutcome.raised "boom" ∧
    (edit_book_authors_run wState "111" [] [some "boom"]).isRaised = true :=
  ⟨rfl, rfl⟩

theorem orphanCleanup_components (st : LibraryState) (name : String) :
    (orphanCleanup st name).books = st.books ∧
    (orphanCleanup st name).users = st.users ∧
    (orphanCleanup st name).authorOf = st.authorOf ∧
    (orphanCleanup st name).borrows = st.borrows ∧
    (orphanCleanup st name).rates = st.rates := by
  unfold orphanCleanup deleteAuthorNode
  split <;> exact ⟨rfl, rfl, rfl, rfl, rfl⟩

theorem foldl_orphanCleanup_components (l : List String) (st : LibraryState) :
    (l.foldl orphanCleanup st).books = st.books ∧
    (l.foldl orphanCleanup st).users = st.users ∧
    (l.foldl orphanCleanup st).authorOf = st.authorOf ∧
    (l.foldl orphanCleanup st).borrows = st.borrows ∧
    (l.foldl orphanCleanup st).rates = st.rates := by
  induction l generalizing st with
  | nil => exact ⟨rfl, rfl, rfl, rfl, rfl⟩
  | cons a t ih =>
    simp only [List.foldl_cons]
    have h1 := orphanCleanup_components st a
    have h2 := ih (orphanCleanup st a)
    exact ⟨h2.1.trans h1.1, h2.2.1.trans h1.2.1, h2.2.2.1.trans h1.2.2.1,
      h2.2.2.2.1.trans h1.2.2.2.1, h2.2.2.2.2.trans h1.2.2.2.2⟩

theorem linkAuthorToBook_components (st : LibraryState) (isbn name : String) :
    (linkAuthorToBook st isbn name).books = st.books ∧
    (linkAuthorToBook st isbn name).users = st.users ∧
    (linkAuthorToBook st isbn name).borrows = st.borrows ∧
    (linkAuthorToBook st isbn name).rates = st.rates := by
  unfold linkAuthorToBook
  split <;> exact ⟨rfl, rfl, rfl, rfl⟩

theorem foldl_link_components (names : List String) (st : LibraryState) (isbn : String) :
    ((names.foldl (fun st name => linkAuthorToBook st isbn name) st).books = st.books ∧
     (names.foldl (fun st name => linkAuthorToBook st isbn name) st).users = st.users ∧
     (names.foldl (fun st name => linkAuthorToBook st isbn name) st).borrows = st.borrows ∧
     (names.foldl (fun st name => linkAuthorToBook st isbn name) st).rates = st.rates) := by
  induction names generalizing st with
  | nil => exact ⟨rfl, rfl, rfl, rfl⟩
  | cons a t ih =>
    simp only [List.foldl_cons]
    have h1 := linkAuthorToBook_components st isbn a
    have h2 := ih (linkAuthorToBook st isbn a)
    exact ⟨h2.1.trans h1.1, h2.2.1.trans h1.2.1, h2.2.2.1.trans h1.2.2.1,
      h2.2.2.2.trans h1.2.2.2⟩

/-- C4: rate_book enforces at most one rating per (user, book) pair: a
second rating fails with the duplicate error carrying the stored score and
changes nothing, a first rating on an existing user and book creates the
relation with the given score, and no engine operation removes or changes
an existing Rates relation. -/
theorem rating_unique_immutable (s : LibraryState) (username isbn : String) (score : Int) :
    (∀ r, getUser s username ≠ none → getBook s isbn ≠ none →
        s.rates.find? (fun x => x.username = username ∧ x.isbn = isbn) = some r →
        rate_book s username isbn score =
          (false, s, ["user username=" ++ username ++ " has already rated book isbn=" ++
            isbn ++ " with score=" ++ toString r.score])) ∧
    (getUser s username ≠ none → getBook s isbn ≠ none →
        s.rates.find? (fun x => x.username = username ∧ x.isbn = isbn) = none →
        rate_book s username isbn score =
          (true, { s with rates := s.rates ++
            [{ username := username, isbn := isbn, score := score }] }, [])) ∧
    (∀ e ∈ s.rates, ∀ (isbn2 username2 : String) (score2 : Int)
        (values names : List String) (b : Book) (u : User),
      e ∈ (check_out_book_for_user s isbn2 username2).2.rates ∧
      e ∈ (return_book_for_user s isbn2 username2).2.rates ∧
      e ∈ (rate_book s username2 isbn2 score2).2.1.rates ∧
      e ∈ (edit_book_authors s isbn2 names).2.rates ∧
      (∀ r', edit_book_numeric s isbn2 "quantity" values = some r' → e ∈ r'.2.rates) ∧
      (∀ r', edit_book_numeric s isbn2 "pages" values = some r' → e ∈ r'.2.rates) ∧
      e ∈ (remove_book s isbn2).2.rates ∧
      e ∈ (remove_user s username2).2.rates ∧
      e ∈ (add_book s b names).2.rates ∧
      e ∈ (add_user s u).2.rates) := by
  refine ⟨?_, ?_, ?_⟩
  · intro r hU hB hf
    unfold rate_book
    cases hu : getUser s username with
    | none => exact absurd hu hU
    | some u =>
      cases hb : getBook s isbn with
      | none => exact absurd hb hB
      | some bk =>
        dsimp only
        rw [hf]
  · intro hU hB hf
    unfold rate_book
    cases hu : getUser s username with
    | none => exact absurd hu hU
    | some u =>
      cases hb : getBook s isbn with
      | none => exact absurd hb hB
      | some bk =>
        dsimp only
        rw [hf]
  · intro e he isbn2 username2 score2 values names b u
    have hnum : ∀ (f : String) (r' : Bool × LibraryState),
        edit_book_numeric s isbn2 f values = some r' → r'.2.rates = s.rates := by
      intro f r' h
      unfold edit_book_numeric at h
      split at h
      · cases h
        rfl
      · split at h
        · cases h
        · split at h
          · cases h
            rfl
          · split at h
            · cases h
              rfl
            · cases h
              rfl
    refine ⟨?_, ?_, ?_, ?_, fun r' h => by rw [hnum "quantity" r' h]; exact he,
      fun r' h => by rw [hnum "pages" r' h]; exact he, ?_, ?_, ?_, ?_⟩
    · rcases check_out_cases s isbn2 username2 with h | ⟨bb, uu, _, _, _, h⟩
      · rw [h]
        exact he
      · rw [h]
        have : (shiftBookQuantity (mergeBorrows s isbn2 username2) isbn2 (-1)).rates =
            s.rates :=
          (shiftBookQuantity_frame _ _ _).2.2.2.2.trans (mergeBorrows_frame _ _ _).2.2.2.2
        rw [show ((true, shiftBookQuantity (mergeBorrows s isbn2 username2) isbn2 (-1)) :
          Bool × LibraryState).2 = shiftBookQuantity (mergeBorrows s isbn2 username2)
            isbn2 (-1) from rfl, this]
        exact he
    · rcases return_cases s isbn2 username2 with h | ⟨br, hm, hcase⟩
      · rw [h]
        exact he
      · rcases hcase with ⟨h1, h⟩ | ⟨h1, h⟩ <;> rw [h] <;> exact he
    · unfold rate_book
      cases hu : getUser s username2 with
      | none => exact he
      | some uu =>
        cases hb : getBook s isbn2 with
        | none => exact he
        | some bk =>
          dsimp only
          cases hf : s.rates.find? (fun x => x.username = username2 ∧ x.isbn = isbn2) with
          | some r => exact he
          | none => exact List.mem_append_left _ he
    · unfold edit_book_authors
      dsimp only
      rw [(foldl_link_components _ _ _).2.2.2, (foldl_orphanCleanup_components _ _).2.2.2.2]
      exact he
    · unfold remove_book
      split

      · exact he
      · dsimp only
        show e ∈ (List.foldl orphanCleanup _ _).rates
        rw [(foldl_orphanCleanup_components _ _).2.2.2.2]
        exact he
    · unfold remove_user
      split
      · exact he
      · exact he
    · unfold add_book
      split
      · exact he
      · dsimp only
        rw [(foldl_link_components _ _ _).2.2.2]
        exact he
    · unfold add_user
      split
      · exact he
      · exact he

/-- Witness for C4: a duplicate rating fails with the stored score in the
message, and a first rating is created. -/
theorem rating_unique_immutable_witness :
    rate_book wStateR "alice" "111" 3 =
      (false, wStateR,
        ["user username=alice has already rated book isbn=111 with score=5"]) ∧
    rate_book wState "alice" "111" 4 =
      (true, { wState with rates := [{ username := "alice", isbn := "111", score := 4 }] },
        []) :=
  ⟨(rating_unique_immutable wStateR "alice" "111" 3).1
      { username := "alice", isbn := "111", score := 5 } (by decide) (by decide) (by decide),
    (rating_unique_immutable wState "alice" "111" 4).2.1 (by decide) (by decide) (by decide)⟩

/-! ### Orphan-cleanup and author-linking fold lemmas -/

theorem authorLinkCount_congr {s1 s2 : LibraryState} (hao : s1.authorOf = s2.authorOf)
    (hb : s1.books = s2.books) (a : String) :
    authorLinkCount s1 a = authorLinkCount s2 a := by
  unfold authorLinkCount
  rw [hao]
  congr 1
  apply List.filter_congr
  intro e he
  rw [decide_eq_decide]
  unfold bookExists
  rw [hb]

theorem orphan_fold_not_mem (l : List String) (st : LibraryState) (a : String)
    (h : a ∉ st.authors) : a ∉ (l.foldl orphanCleanup st).authors := by
  induction l generalizing st with
  | nil => exact h
  | cons n t ih =>
    rw [List.foldl_cons]
    apply ih
    unfold orphanCleanup deleteAuthorNode
    split
    · exact fun hmem => h (List.mem_of_mem_filter hmem)
    · exact h

theorem orphan_fold_removes (l : List String) (st : LibraryState) (a : String)
    (hl : a ∈ l) (hcount : authorLinkCount st a = 0) :
    a ∉ (l.foldl orphanCleanup st).authors := by
  induction l generalizing st with
  | nil => cases hl
  | cons n t ih =>
    rw [List.foldl_cons]
    by_cases hna : n = a
    · subst hna
      have hrc : authorRelationCount st n = 0 := by
        unfold authorRelationCount
        split
        · exact hcount
        · rfl
      have hnotmem : n ∉ (orphanCleanup st n).authors := by
        unfold orphanCleanup
        rw [if_pos hrc]
        unfold deleteAuthorNode
        show n ∉ st.authors.filter (fun a => ¬ a = n)
        intro hmemf
        have hp := List.of_mem_filter hmemf
        exact (of_decide_eq_true hp) rfl
      exact orphan_fold_not_mem t _ n hnotmem
    · have hcnt2 : authorLinkCount (orphanCleanup st n) a = 0 := by
        rw [authorLinkCount_congr (orphanCleanup_components st n).2.2.1
          (orphanCleanup_components st n).1 a]
        exact hcount
      rcases List.mem_cons.mp hl with h | h
      · exact absurd h.symm hna
      · exact ih _ h hcnt2

theorem orphan_fold_keeps (l : List String) (st : LibraryState) (a : String)
    (hmem : a ∈ st.authors) (hcnt : authorLinkCount st a ≠ 0) :
    a ∈ (l.foldl orphanCleanup st).authors := by
  induction l generalizing st with
  | nil => exact hmem
  | cons n t ih =>
    rw [List.foldl_cons]
    have hmem2 : a ∈ (orphanCleanup st n).authors := by
      unfold orphanCleanup
      split
      · rename_i hc0
        unfold deleteAuthorNode
        refine List.mem_filter.mpr ⟨hmem, decide_eq_true ?_⟩
        intro hna
        subst hna
        unfold authorRelationCount at hc0
        rw [if_pos (show authorExists st a from hmem)] at hc0
        exact hcnt hc0
      · exact hmem
    have hcnt2 : authorLinkCount (orphanCleanup st n) a ≠ 0 := by
      rw [authorLinkCount_congr (orphanCleanup_components st n).2.2.1
        (orphanCleanup_components st n).1 a]
      exact hcnt
    exact ih _ hmem2 hcnt2

theorem orphan_fold_untouched (l : List String) (st : LibraryState) (a : String)
    (hmem : a ∈ st.authors) (hl : a ∉ l) :
    a ∈ (l.foldl orphanCleanup st).authors := by
  induction l generalizing st with
  | nil => exact hmem
  | cons n t ih =>
    rw [List.foldl_cons]
    have hna : ¬ a = n := fun h => hl (h ▸ List.mem_cons_self n t)
    have hmem2 : a ∈ (orphanCleanup st n).authors := by
      unfold orphanCleanup deleteAuthorNode
      split
      · exact List.mem_filter.mpr ⟨hmem, decide_eq_true hna⟩
      · exact hmem
    exact ih _ hmem2 (fun h => hl (List.mem_cons_of_mem n h))

theorem link_fold_not_mem (names : List String) (st : LibraryState) (isbn a : String)
    (hmem : a ∉ st.authors) (hnames : a ∉ names) :
    a ∉ (names.foldl (fun st name => linkAuthorToBook st isbn name) st).authors := by
  induction names generalizing st with
  | nil => exact hmem
  | cons n t ih =>
    rw [List.foldl_cons]
    have hna : a ≠ n := fun h => hnames (h ▸ List.mem_cons_self n t)
    have hmem2 : a ∉ (linkAuthorToBook st isbn n).authors := by
      unfold linkAuthorToBook
      split
      · dsimp only
        split
        · exact hmem
        · intro hm
          rcases List.mem_append.mp hm with h | h
          · exact hmem h
          · exact hna (List.mem_singleton.mp h)
      · exact hmem
    exact ih _ hmem2 (fun h => hnames (List.mem_cons_of_mem n h))

theorem link_fold_mono (names : List String) (st : LibraryState) (isbn a : String)
    (hmem : a ∈ st.authors) :
    a ∈ (names.foldl (fun st name => linkAuthorToBook st isbn name) st).authors := by
  induction names generalizing st with
  | nil => exact hmem
  | cons n t ih =>
    rw [List.foldl_cons]
    have hmem2 : a ∈ (linkAuthorToBook st isbn n).authors := by
      unfold linkAuthorToBook
      split
      · dsimp only
        split
        · exact hmem
        · exact List.mem_append_left _ hmem
      · exact hmem
    exact ih _ hmem2

theorem link_fold_adds (names : List String) (st : LibraryState) (isbn a : String)
    (hnames : a ∈ names) (hbook : bookExists st isbn) :
    a ∈ (names.foldl (fun st name => linkAuthorToBook st isbn name) st).authors := by
  induction names generalizing st with
  | nil => cases hnames
  | cons n t ih =>
    rw [List.foldl_cons]
    by_cases hna : n = a
    · subst hna
      have hmem2 : n ∈ (linkAuthorToBook st isbn n).authors := by
        unfold linkAuthorToBook
        rw [if_pos hbook]
        dsimp only
        split
        · rename_i hex
          exact hex
        · exact List.mem_append_right _ (List.mem_singleton.mpr rfl)
      exact link_fold_mono t _ isbn n hmem2
    · have hbook2 : bookExists (linkAuthorToBook st isbn n) isbn := by
        unfold bookExists
        rw [(linkAuthorToBook_components st isbn n).1]
        exact hbook
      rcases List.mem_cons.mp hnames with h | h
      · exact absurd h.symm hna
      · exact ih _ h hbook2

theorem link_fold_authorOf (names : List String) (st : LibraryState) (isbn : String)
    (hbook : bookExists st isbn) :
    (names.foldl (fun st name => linkAuthorToBook st isbn name) st).authorOf =
      st.authorOf ++ names.map (fun n => { isbn := isbn, author := n }) := by
  induction names generalizing st with
  | nil => simp
  | cons n t ih =>
    rw [List.foldl_cons]
    have hbook2 : bookExists (linkAuthorToBook st isbn n) isbn := by
      unfold bookExists
      rw [(linkAuthorToBook_components st isbn n).1]
      exact hbook
    rw [ih _ hbook2]
    have hao : (linkAuthorToBook st isbn n).authorOf =
        st.authorOf ++ [{ isbn := isbn, author := n }] := by
      unfold linkAuthorToBook
      rw [if_pos hbook]
    rw [hao, List.map_cons, List.append_assoc, List.singleton_append]

theorem mem_ite_nil {α : Type} (c : Prop) [Decidable c] (l : List α) (x : α) :
    x ∈ (if c then l else []) ↔ c ∧ x ∈ l := by
  split
  · rename_i h
    exact ⟨fun hx => ⟨h, hx⟩, fun h2 => h2.2⟩
  · rename_i h
    exact ⟨fun hx => absurd hx (List.not_mem_nil x), fun h2 => absurd h2.1 h⟩

theorem rate_pairwise_ne {s : LibraryState} (huniq : UniqueRates s) {a b : Rate}
    (ha : a ∈ s.rates) (hb : b ∈ s.rates) (hne : a ≠ b) :
    ¬(a.username = b.username ∧ a.isbn = b.isbn) := by
  have hsym : Symmetric (fun a b : Rate =>
      ¬(a.username = b.username ∧ a.isbn = b.isbn)) :=
    fun x y h hk => h ⟨hk.1.symm, hk.2.symm⟩
  exact huniq.forall hsym ha hb hne

/-- C7 (amended): on states where each (user, book) pair rates at most once
and ratings connect existing nodes, recommend_books returns exactly the
books b2 with a witness chain of three pairwise-distinct Rates relations:
a book b1 rated by the origin user, another user who rated b1 with the same
score, and a rating with score at least 3 by that user on b2 where b2
differs from b1 along that chain (Cypher relationship uniqueness forbids
reusing the aligned rater's single rating for both hops); the result is an
unordered sequence that may contain duplicates. -/
theorem recommend_membership (s : LibraryState) (username b2 : String)
    (huniq : UniqueRates s) (hwf : RatesWF s) :
    b2 ∈ recommend_books s username ↔
      ∃ r1 ∈ s.rates, ∃ r2 ∈ s.rates, ∃ r3 ∈ s.rates,
        r1.username = username ∧ r2.isbn = r1.isbn ∧ r2.score = r1.score ∧
        r2.username ≠ username ∧ r3.username = r2.username ∧ r3.isbn = b2 ∧
        r3.isbn ≠ r1.isbn ∧ 3 ≤ r3.score := by
  constructor
  · intro hmem
    unfold recommend_books at hmem
    rw [List.mem_flatMap] at hmem
    obtain ⟨r1, hr1, hmem⟩ := hmem
    rw [mem_ite_nil] at hmem
    obtain ⟨⟨hUex, hB1, hu1⟩, hmem⟩ := hmem
    rw [List.mem_flatMap] at hmem
    obtain ⟨r2, hr2, hmem⟩ := hmem
    rw [mem_ite_nil] at hmem
    obtain ⟨⟨hU2, hne21, hi21, hs21⟩, hmem⟩ := hmem
    rw [List.mem_flatMap] at hmem
    obtain ⟨r3, hr3, hmem⟩ := hmem
    rw [mem_ite_nil] at hmem
    obtain ⟨⟨hB3, hne31, hne32, hu32, hs3⟩, hmem⟩ := hmem
    rw [List.mem_singleton] at hmem
    subst hmem
    refine ⟨r1, hr1, r2, hr2, r3, hr3, hu1, hi21, hs21, ?_, hu32, rfl, ?_, hs3⟩
    · intro hequ
      exact rate_pairwise_ne huniq hr2 hr1 hne21 ⟨hequ.trans hu1.symm, hi21⟩
    · intro heq
      exact rate_pairwise_ne huniq hr3 hr2 hne32 ⟨hu32, heq.trans hi21.symm⟩
  · rintro ⟨r1, hr1, r2, hr2, r3, hr3, hu1, hi21, hs21, hneu, hu32, hb2, hneisbn, hs3⟩
    unfold recommend_books
    rw [List.mem_flatMap]
    refine ⟨r1, hr1, ?_⟩
    rw [mem_ite_nil]
    refine ⟨⟨hu1 ▸ (hwf r1 hr1).1, (hwf r1 hr1).2, hu1⟩, ?_⟩
    rw [List.mem_flatMap]
    refine ⟨r2, hr2, ?_⟩
    rw [mem_ite_nil]
    refine ⟨⟨(hwf r2 hr2).1, fun heq => hneu (by rw [heq, hu1]), hi21, hs21⟩, ?_⟩
    rw [List.mem_flatMap]
    refine ⟨r3, hr3, ?_⟩
    rw [mem_ite_nil]
    refine ⟨⟨(hwf r3 hr3).2, fun heq => hneu (by rw [← hu32, heq, hu1]),
      fun heq => hneisbn (by rw [heq, hi21]), hu32, hs3⟩, ?_⟩
    rw [List.mem_singleton]
    exact hb2.symm

/-- Witness for C7 (amended): bob aligns with alice on book 111 and rated
book 222 with score 4, so 222 is recommended to alice. -/
theorem recommend_membership_witness :
    "222" ∈ recommend_books w7State "alice" :=
  (recommend_membership w7State "alice" "222" (by decide) (by decide)).mpr (by decide)

/-- C5: the authors replacement of edit_book removes every current
Author_Of relation of the book, deletes each removed author whose remaining
relation count is zero, then find-or-creates and links each new name: for a
book authored by [A, B] with A on no other book, setAuthors to [B, C]
leaves A deleted, B present, C present, and the book linked to exactly
[B, C]; and setAuthors to the empty list removes any author linked only to
that book. -/
theorem set_authors_replacement (s : LibraryState) (X A B C : String)
    (hX : bookExists s X) (hA : A ∈ s.authors) (hB : B ∈ s.authors)
    (hlinks : s.authorOf.filter (fun e => e.isbn = X) =
      [{ isbn := X, author := A }, { isbn := X, author := B }])
    (hAonly : ∀ e ∈ s.authorOf, e.author = A → e.isbn = X)
    (hAB : A ≠ B) (hAC : A ≠ C) :
    (A ∉ (edit_book_authors s X [B, C]).2.authors ∧
     B ∈ (edit_book_authors s X [B, C]).2.authors ∧
     C ∈ (edit_book_authors s X [B, C]).2.authors ∧
     (edit_book_authors s X [B, C]).2.authorOf.filter (fun e => e.isbn = X) =
       [{ isbn := X, author := B }, { isbn := X, author := C }]) ∧
    (∀ (s' : LibraryState) (isbn a : String), bookExists s' isbn → a ∈ s'.authors →
      (∃ e ∈ s'.authorOf, e.isbn = isbn ∧ e.author = a) →
      (∀ e ∈ s'.authorOf, e.author = a → e.isbn = isbn) →
      a ∉ (edit_book_authors s' isbn []).2.authors) := by
  constructor
  · have hauth : ∀ e ∈ s.authorOf, e.isbn = X → authorExists s e.author := by
      intro e he hisbn
      have hef : e ∈ s.authorOf.filter (fun e => e.isbn = X) :=
        List.mem_filter.mpr ⟨he, decide_eq_true hisbn⟩
      rw [hlinks] at hef
      rcases List.mem_cons.mp hef with h | h
      · rw [h]
        exact hA
      · rw [List.mem_singleton.mp h]
        exact hB
    have hml : matchedAuthorLinks s X =
        [{ isbn := X, author := A }, { isbn := X, author := B }] := by
      unfold matchedAuthorLinks
      have hpoint : ∀ e ∈ s.authorOf,
          (decide (linkMatches s X e)) = (decide (e.isbn = X)) := by
        intro e he
        rw [decide_eq_decide]
        exact ⟨fun h => h.2.1, fun hisbn => ⟨hX, hisbn, hauth e he hisbn⟩⟩
      rw [List.filter_congr hpoint, hlinks]
    have hs1X : (s.authorOf.filter (fun e => ¬ linkMatches s X e)).filter
        (fun e => e.isbn = X) = [] := by
      apply List.filter_eq_nil_iff.mpr
      intro e he hisbn
      have h1 := List.mem_of_mem_filter he
      have h2' := List.of_mem_filter he
      have h2 : ¬ linkMatches s X e := of_decide_eq_true h2'
      exact h2 ⟨hX, of_decide_eq_true hisbn, hauth e h1 (of_decide_eq_true hisbn)⟩
    unfold edit_book_authors
    dsimp only
    rw [hml]
    have hcntA : authorLinkCount
        { s with authorOf := s.authorOf.filter (fun e => ¬ linkMatches s X e) } A = 0 := by
      unfold authorLinkCount
      dsimp only
      rw [List.length_eq_zero]
      apply List.filter_eq_nil_iff.mpr
      intro e he hc
      have h1 := List.mem_of_mem_filter he
      have h2' := List.of_mem_filter he
      have h2 : ¬ linkMatches s X e := of_decide_eq_true h2'
      have hc' := of_decide_eq_true hc
      exact h2 ⟨hX, hAonly e h1 hc'.1, by rw [hc'.1]; exact hA⟩
    have hbook2 : bookExists (List.foldl orphanCleanup
        { s with authorOf := s.authorOf.filter (fun e => ¬ linkMatches s X e) }
        [A, B]) X := by
      unfold bookExists
      rw [(foldl_orphanCleanup_components _ _).1]
      exact hX
    refine ⟨?_, ?_, ?_, ?_⟩
    · apply link_fold_not_mem
      · apply orphan_fold_removes
        · show A ∈ [A, B]
          exact List.mem_cons_self A [B]
        · exact hcntA
      · intro h
        rcases List.mem_cons.mp h with h | h
        · exact hAB h
        · exact hAC (List.mem_singleton.mp h)
    · exact link_fold_adds _ _ _ _ (List.mem_cons_self B [C]) hbook2
    · exact link_fold_adds _ _ _ _ (List.mem_cons_of_mem B (List.mem_singleton.mpr rfl))
        hbook2
    · simp only [List.map_cons, List.map_nil]
      rw [link_fold_authorOf _ _ _ hbook2,
        (foldl_orphanCleanup_components _ _).2.2.1, List.filter_append, hs1X,
        List.nil_append]
      simp
  · intro s' isbn a hbook hmem hex hall
    rcases hex with ⟨e, he, heisbn, heauth⟩
    unfold edit_book_authors
    dsimp only
    rw [List.foldl_nil]
    apply orphan_fold_removes
    · refine List.mem_map.mpr ⟨e, ?_, heauth⟩
      unfold matchedAuthorLinks
      refine List.mem_filter.mpr ⟨he, decide_eq_true ?_⟩
      exact ⟨hbook, heisbn, by rw [heauth]; exact hmem⟩
    · unfold authorLinkCount
      dsimp only
      rw [List.length_eq_zero]
      apply List.filter_eq_nil_iff.mpr
      intro e2 he2 hc
      have h1 := List.mem_of_mem_filter he2
      have h2' := List.of_mem_filter he2
      have h2 : ¬ linkMatches s' isbn e2 := of_decide_eq_true h2'
      have hc' := of_decide_eq_true hc
      exact h2 ⟨hbook, hall e2 h1 hc'.1, by rw [hc'.1]; exact hmem⟩

/-- Witness for C5 at the shared state: book 111 is authored by A and B;
replacing the author set with [B, C] deletes A, keeps B, creates C. -/
theorem set_authors_replacement_witness :
    "A" ∉ (edit_book_authors wState "111" ["B", "C"]).2.authors ∧
    "B" ∈ (edit_book_authors wState "111" ["B", "C"]).2.authors ∧
    "C" ∈ (edit_book_authors wState "111" ["B", "C"]).2.authors :=
  ⟨((set_authors_replacement wState "111" "A" "B" "C" (by decide) (by decide) (by decide)
      (by decide) (by decide) (by decide) (by decide)).1).1,
   ((set_authors_replacement wState "111" "A" "B" "C" (by decide) (by decide) (by decide)
      (by decide) (by decide) (by decide) (by decide)).1).2.1,
   ((set_authors_replacement wState "111" "A" "B" "C" (by decide) (by decide) (by decide)
      (by decide) (by decide) (by decide) (by decide)).1).2.2.1⟩

/-- Counterexample to C7 as stated: with alice and bob both rating book 111
with score 3 and no other rating, the spec's membership predicate puts 111
in alice's recommendations (b1 = b2 = 111, aligned rater bob), but the
engine's query returns nothing: bob's single rating cannot serve as both
the alignment hop and the recommendation hop of one path. -/
theorem claim_c7_counterexample :
    recommendClaimed cState7 "alice" "111" ∧
    "111" ∉ recommend_books cState7 "alice" := by
  constructor
  · decide
  · decide

/-- C6 (amended): the deletion guards count every relation type between the
entity and its counterpart nodes, so remove_book is blocked exactly when a
Borrows or a Rates relation connects the book to an existing user, and
remove_user likewise for the user; a blocked call leaves the state
unchanged; a successful remove_book deletes the Book node, removes the
book's Author_Of relations, and deletes exactly those authors of the book
that have no link to another book, and a successful remove_user deletes the
User node. -/
theorem deletion_guard_relations (s : LibraryState) (isbn username : String) :
    ((remove_book s isbn).1 = false ↔
      bookExists s isbn ∧
        ((∃ br ∈ s.borrows, br.isbn = isbn ∧ userExists s br.username) ∨
         (∃ r ∈ s.rates, r.isbn = isbn ∧ userExists s r.username))) ∧
    ((remove_book s isbn).1 = false → (remove_book s isbn).2 = s) ∧
    ((remove_user s username).1 = false ↔
      userExists s username ∧
        ((∃ br ∈ s.borrows, br.username = username ∧ bookExists s br.isbn) ∨
         (∃ r ∈ s.rates, r.username = username ∧ bookExists s r.isbn))) ∧
    ((remove_user s username).1 = false → (remove_user s username).2 = s) ∧
    (AuthorLinksWF s → (remove_book s isbn).1 = true →
      ¬ bookExists (remove_book s isbn).2 isbn ∧
      (remove_book s isbn).2.authorOf = s.authorOf.filter (fun e => ¬ e.isbn = isbn) ∧
      (∀ a ∈ s.authors, a ∉ (remove_book s isbn).2.authors ↔
        (∃ e ∈ s.authorOf, e.author = a ∧ e.isbn = isbn) ∧
        (∀ e ∈ s.authorOf, e.author = a → e.isbn = isbn))) ∧
    ((remove_user s username).1 = true →
      (remove_user s username).2 =
        { s with users := s.users.filter (fun u => ¬ u.username = username) }) := by
  have hbookcount : countBookUserRelations s isbn ≠ 0 ↔
      bookExists s isbn ∧
        ((∃ br ∈ s.borrows, br.isbn = isbn ∧ userExists s br.username) ∨
         (∃ r ∈ s.rates, r.isbn = isbn ∧ userExists s r.username)) := by
    unfold countBookUserRelations
    split
    · rename_i hb
      constructor
      · intro hne
        refine ⟨hb, ?_⟩
        by_contra hno
        rcases not_or.mp hno with ⟨hno1, hno2⟩
        apply hne
        have l1 : (s.borrows.filter
            (fun br => br.isbn = isbn ∧ userExists s br.username)).length = 0 := by
          rw [List.length_eq_zero, List.filter_eq_nil_iff]
          intro x hx hp
          exact hno1 ⟨x, hx, of_decide_eq_true hp⟩
        have l2 : (s.rates.filter
            (fun r => r.isbn = isbn ∧ userExists s r.username)).length = 0 := by
          rw [List.length_eq_zero, List.filter_eq_nil_iff]
          intro x hx hp
          exact hno2 ⟨x, hx, of_decide_eq_true hp⟩
        omega
      · rintro ⟨_, h | h⟩
        · rcases h with ⟨br, hbr, hp⟩
          have hm : br ∈ s.borrows.filter
              (fun br => br.isbn = isbn ∧ userExists s br.username) :=
            List.mem_filter.mpr ⟨hbr, decide_eq_true hp⟩
          have := List.length_pos_of_mem hm
          omega
        · rcases h with ⟨r, hr, hp⟩
          have hm : r ∈ s.rates.filter
              (fun r => r.isbn = isbn ∧ userExists s r.username) :=
            List.mem_filter.mpr ⟨hr, decide_eq_true hp⟩
          have := List.length_pos_of_mem hm
          omega
    · rename_i hb
      exact iff_of_false (fun h => h rfl) (fun h => hb h.1)
  have husercount : countUserBookRelations s username ≠ 0 ↔
      userExists s username ∧
        ((∃ br ∈ s.borrows, br.username = username ∧ bookExists s br.isbn) ∨
         (∃ r ∈ s.rates, r.username = username ∧ bookExists s r.isbn)) := by
    unfold countUserBookRelations
    split
    · rename_i hb
      constructor
      · intro hne
        refine ⟨hb, ?_⟩
        by_contra hno
        rcases not_or.mp hno with ⟨hno1, hno2⟩
        apply hne
        have l1 : (s.borrows.filter
            (fun br => br.username = username ∧ bookExists s br.isbn)).length = 0 := by
          rw [List.length_eq_zero, List.filter_eq_nil_iff]
          intro x hx hp
          exact hno1 ⟨x, hx, of_decide_eq_true hp⟩
        have l2 : (s.rates.filter
            (fun r => r.username = username ∧ bookExists s r.isbn)).length = 0 := by
          rw [List.length_eq_zero, List.filter_eq_nil_iff]
          intro x hx hp
          exact hno2 ⟨x, hx, of_decide_eq_true hp⟩
        omega
      · rintro ⟨_, h | h⟩
        · rcases h with ⟨br, hbr, hp⟩
          have hm : br ∈ s.borrows.filter
              (fun br => br.username = username ∧ bookExists s br.isbn) :=
            List.mem_filter.mpr ⟨hbr, decide_eq_true hp⟩
          have := List.length_pos_of_mem hm
          omega
        · rcases h with ⟨r, hr, hp⟩
          have hm : r ∈ s.rates.filter
              (fun r => r.username = username ∧ bookExists s r.isbn) :=
            List.mem_filter.mpr ⟨hr, decide_eq_true hp⟩
          have := List.length_pos_of_mem hm
          omega
    · rename_i hb
      exact iff_of_false (fun h => h rfl) (fun h => hb h.1)
  refine ⟨?_, ?_, ?_, ?_, ?_, ?_⟩
  · rw [← hbookcount]
    unfold remove_book
    split
    · rename_i h
      exact ⟨fun _ => h, fun _ => rfl⟩
    · rename_i h
      exact iff_of_false (fun hf => Bool.noConfusion hf) h
  · unfold remove_book
    split
    · intro _
      rfl
    · intro hf
      exact absurd hf (fun hf => Bool.noConfusion hf)
  · rw [← husercount]
    unfold remove_user
    split
    · rename_i h
      exact ⟨fun _ => h, fun _ => rfl⟩
    · rename_i h
      exact iff_of_false (fun hf => Bool.noConfusion hf) h
  · unfold remove_user
    split
    · intro _
      rfl
    · intro hf
      exact absurd hf (fun hf => Bool.noConfusion hf)
  · intro hwf hsucc
    by_cases hcnt : countBookUserRelations s isbn ≠ 0
    · exfalso
      unfold remove_book at hsucc
      rw [if_pos hcnt] at hsucc
      exact Bool.noConfusion hsucc
    · have hbooks : (remove_book s isbn).2.books =
          s.books.filter (fun b => ¬ b.isbn = isbn) := by
        unfold remove_book
        rw [if_neg hcnt]
        dsimp only
        rw [(foldl_orphanCleanup_components _ _).1]
      have hao : (remove_book s isbn).2.authorOf =
          s.authorOf.filter (fun e => ¬ linkMatches s isbn e) := by
        unfold remove_book
        rw [if_neg hcnt]
        dsimp only
        exact (foldl_orphanCleanup_components _ _).2.2.1
      have hauthors : (remove_book s isbn).2.authors =
          (List.foldl orphanCleanup
            { s with authorOf := (s.authorOf.filter (fun e => ¬ linkMatches s isbn e)) }
            ((matchedAuthorLinks s isbn).map (fun e => e.author))).authors := by
        unfold remove_book
        rw [if_neg hcnt]
      refine ⟨?_, ?_, ?_⟩
      · rintro ⟨b, hbm, hbisbn⟩
        rw [hbooks] at hbm
        have h2' := List.of_mem_filter hbm
        exact (of_decide_eq_true h2') hbisbn
      · rw [hao]
        apply List.filter_congr
        intro e he
        rw [decide_eq_decide]
        constructor
        · intro hnl hei
          exact hnl ⟨hei ▸ (hwf e he).1, hei, (hwf e he).2⟩
        · exact fun hne hl => hne hl.2.1
      · intro a hamem
        rw [hauthors]
        constructor
        · intro hnot
          by_contra hno
          rcases not_and_or.mp hno with hP | hQ
          · apply hnot
            apply orphan_fold_untouched
            · exact hamem
            · intro hmemr
              rcases List.mem_map.mp hmemr with ⟨e, heM, heA⟩
              have heMem := List.mem_of_mem_filter heM
              have heLM' := List.of_mem_filter heM
              have heLM : linkMatches s isbn e := of_decide_eq_true heLM'
              exact hP ⟨e, heMem, heA, heLM.2.1⟩
          · apply hnot
            apply orphan_fold_keeps
            · exact hamem
            · have hQ2 : ∃ e ∈ s.authorOf, e.author = a ∧ ¬ e.isbn = isbn := by
                push_neg at hQ
                exact hQ
              rcases hQ2 with ⟨e, he, heA, heNI⟩
              intro h0
              unfold authorLinkCount at h0
              dsimp only at h0
              rw [List.length_eq_zero] at h0
              have hmem2 : e ∈ (s.authorOf.filter
                  (fun e => ¬ linkMatches s isbn e)).filter
                  (fun x => x.author = a ∧ bookExists
                    { s with authorOf :=
                      (s.authorOf.filter (fun e => ¬ linkMatches s isbn e)) } x.isbn) := by
                refine List.mem_filter.mpr ⟨?_, decide_eq_true ⟨heA, (hwf e he).1⟩⟩
                exact List.mem_filter.mpr ⟨he, decide_eq_true (fun hl => heNI hl.2.1)⟩
              rw [h0] at hmem2
              cases hmem2
        · rintro ⟨⟨e, he, heA, heI⟩, hall⟩
          apply orphan_fold_removes
          · refine List.mem_map.mpr ⟨e, ?_, heA⟩
            unfold matchedAuthorLinks
            refine List.mem_filter.mpr ⟨he, decide_eq_true ?_⟩
            exact ⟨heI ▸ (hwf e he).1, heI, heA ▸ hamem⟩
          · unfold authorLinkCount
            dsimp only
            rw [List.length_eq_zero]
            apply List.filter_eq_nil_iff.mpr
            intro e2 he2 hc
            have h1 := List.mem_of_mem_filter he2
            have h2' := List.of_mem_filter he2
            have h2 : ¬ linkMatches s isbn e2 := of_decide_eq_true h2'
            have hc' := of_decide_eq_true hc
            have he2I : e2.isbn = isbn := hall e2 h1 hc'.1
            exact h2 ⟨he2I ▸ (hwf e2 h1).1, he2I, hc'.1 ▸ hamem⟩
  · intro hsucc
    unfold remove_user at hsucc ⊢
    split at hsucc
    · exact Bool.noConfusion hsucc
    · rename_i h
      rw [if_neg h]

/-- Witness for C6 (amended): alice's rating alone blocks remove_book even
with no borrows, and removing a book with no user relations succeeds and
deletes the Book node. -/
theorem deletion_guard_relations_witness :
    (remove_book wStateR "111").1 = false ∧
    ¬ bookExists (remove_book wState "111").2 "111" :=
  ⟨(deletion_guard_relations wStateR "111" "alice").1.mpr (by decide),
    ((deletion_guard_relations wState "111" "alice").2.2.2.2.1 (by decide) (by decide)).1⟩

/-- Counterexample to C6 as stated: in a state where alice has rated book
111 and no Borrows relation exists at all, remove_book and remove_user are
both blocked, because the guard's untyped relation pattern counts Rates
relations too. -/
theorem claim_c6_counterexample :
    (remove_book wStateR "111").1 = false ∧
    wStateR.borrows = [] ∧
    (remove_user wStateR "alice").1 = false := by
  refine ⟨?_, rfl, ?_⟩
  · decide
  · decide

end LibraryCli
